import Mathlib

/-!
# Battle simulation of the Pokemon game API (`src/api/main.go`)

A shallow embedding of `executeAttack`, `simulateBattle` and the round-limit
normalisation of `simulateBattleHandler`.

Conventions of the embedding:

* Go `int` is the 64-bit two's-complement integer.  Values are `Int`s and every
  arithmetic operation of the source is followed by `wrap64`.
* The process-wide generator `math/rand` is a stream of raw draws with a cursor;
  `rand.Intn n` reduces the next raw draw modulo `n`.
* A run-time panic (integer division by zero, `rand.Intn` with a non-positive
  argument, index out of range) is a `Fault`.
* `float64` only ever holds an integer converted from `int`, multiplied by one of
  the three constants `1.0`, `2.0`, `0.5`; these values are computed exactly.
-/

namespace PixelPokemon

/-! ## Machine integers -/

/-- Reduction of an integer to the signed 64-bit range (two's complement). -/
def wrap64 (x : Int) : Int :=
  (x + 9223372036854775808) % 18446744073709551616 - 9223372036854775808

/-- Values a Go `int` can hold. -/
def InInt64 (x : Int) : Prop :=
  -9223372036854775808 ≤ x ∧ x ≤ 9223372036854775807

instance (x : Int) : Decidable (InInt64 x) :=
  inferInstanceAs (Decidable (-9223372036854775808 ≤ x ∧ x ≤ 9223372036854775807))

/-- Go `a + b` on `int`. -/
def add64 (a b : Int) : Int := wrap64 (a + b)

/-- Go `a - b` on `int`. -/
def sub64 (a b : Int) : Int := wrap64 (a - b)

/-- Go `a * b` on `int`. -/
def mul64 (a b : Int) : Int := wrap64 (a * b)

/-- Go `a / b` on `int` for a non-zero divisor: the quotient truncated toward
zero (`MinInt64 / -1` wraps to `MinInt64`). -/
def quo64 (a b : Int) : Int := wrap64 (Int.tdiv a b)

/-! ## Conversion between `int` and `float64` -/

/-- Number of low-order bits a natural number loses when it is stored in a
53-bit significand. -/
def dropBits : Nat → Nat → Nat
  | 0, _ => 0
  | fuel + 1, a => if a < 9007199254740992 then 0 else dropBits fuel (a / 2) + 1

/-- Value of `float64(a)` for a natural number `a` below `2^64`: `a` rounded to
53 significant bits, ties to even. -/
def float64OfNat (a : Nat) : Nat :=
  let e := dropBits 11 a
  let q := a / 2 ^ e
  let r := a % 2 ^ e
  if 2 ^ e < 2 * r ∨ (2 * r = 2 ^ e ∧ q % 2 = 1) then (q + 1) * 2 ^ e else q * 2 ^ e

/-- Value of `float64(x)` for an `int` `x`; it is always an integer. -/
def float64OfInt (x : Int) : Int :=
  if x < 0 then -((float64OfNat x.natAbs : Nat) : Int) else ((float64OfNat x.natAbs : Nat) : Int)

/-- The three values the variable `typeMultiplier` of `executeAttack` takes. -/
inductive Multiplier where
  /-- The value `1.0`. -/
  | one
  /-- The value `2.0`. -/
  | two
  /-- The value `0.5`. -/
  | half
  deriving DecidableEq, Repr

/-- The expression `int(float64(damage) * typeMultiplier)`: the product is exact
in `float64`, and the conversion to `int` truncates toward zero. -/
def scaleDamage (damage : Int) : Multiplier → Int
  | .one => float64OfInt damage
  | .two => 2 * float64OfInt damage
  | .half => Int.tdiv (float64OfInt damage) 2

/-! ## Data model -/

/-- The Go struct `Move`. -/
structure Move where
  Name : String
  /-- The field `Type` of the source (a reserved word here). -/
  MoveType : String
  Power : Int
  Accuracy : Int
  deriving DecidableEq, Repr

/-- The Go struct `Pokemon`. -/
structure Pokemon where
  ID : Int
  Name : String
  Types : List String
  Level : Int
  HP : Int
  MaxHP : Int
  Attack : Int
  Defense : Int
  Speed : Int
  Moves : List Move
  ImageURL : String
  deriving DecidableEq, Repr

/-- The Go struct `BattleResult`. -/
structure BattleResult where
  Winner : String
  Rounds : Int
  BattleLog : List String
  PlayerHP : Int
  OpponentHP : Int
  PlayerMoves : List String
  OpponentMoves : List String
  deriving DecidableEq, Repr

/-- Run-time panics of the modelled code, and exhaustion of the loop fuel of the
model. -/
inductive Fault where
  /-- The panic "integer divide by zero". -/
  | divideByZero
  /-- The panic of `rand.Intn` on a non-positive argument. -/
  | invalidIntnArgument
  /-- The panic "index out of range". -/
  | indexOutOfRange
  /-- The model of the round loop ran out of fuel. -/
  | outOfFuel
  deriving DecidableEq, Repr

/-! ## Random source -/

/-- The state of the generator `math/rand`: the stream of raw draws and the
number of draws consumed so far. -/
structure Rand where
  draws : Nat → Nat
  pos : Nat

/-- The call `rand.Intn(n)`: a value in `[0, n)`, or a panic when `n <= 0`. -/
def Intn (n : Int) (r : Rand) : Except Fault (Int × Rand) :=
  if n ≤ 0 then .error .invalidIntnArgument
  else .ok ((r.draws r.pos : Int) % n, { r with pos := r.pos + 1 })

/-! ## `executeAttack` -/

/-- The loop over `defender.Types` in `executeAttack`: the first type that forms
a matchup with the move type decides the multiplier. -/
def typeMultiplier (moveType : String) : List String → Multiplier
  | [] => .one
  | defenderType :: rest =>
    if (moveType = "water" ∧ defenderType = "fire") ∨
       (moveType = "fire" ∧ defenderType = "grass") ∨
       (moveType = "grass" ∧ defenderType = "water") then .two
    else if (moveType = "water" ∧ defenderType = "grass") ∨
            (moveType = "fire" ∧ defenderType = "water") ∨
            (moveType = "grass" ∧ defenderType = "fire") then .half
    else typeMultiplier moveType rest

/-- The expression
`((2 * attacker.Level / 5 + 2) * move.Power * attacker.Attack / defender.Defense) / 50 + 2`. -/
def baseDamage (level power attack defense : Int) : Int :=
  add64 (quo64 (quo64 (mul64 (mul64 (add64 (quo64 (mul64 2 level) 5) 2) power) attack)
    defense) 50) 2

/-- The damage an attack deals once it hit with a move of positive power: the
value of `damage` after the clamp `if damage < 1 { damage = 1 }`; `rf` is
`randomFactor`. -/
def damageDealt (level power attack defense rf : Int) (m : Multiplier) : Int :=
  let damage := quo64 (mul64 (baseDamage level power attack defense) rf) 100
  let damage := scaleDamage damage m
  if damage < 1 then 1 else damage

/-- The statements `defender.HP -= damage; if defender.HP < 0 { defender.HP = 0 }`. -/
def applyDamage (hp damage : Int) : Int :=
  let hp := sub64 hp damage
  if hp < 0 then 0 else hp

/-- The variable `effectivenessMsg`. -/
def effectivenessMsg : Multiplier → String
  | .two => "It's super effective!"
  | .half => "It's not very effective..."
  | .one => ""

/-- The message of a missed attack. -/
def missMsg (attacker : Pokemon) (move : Move) : String :=
  attacker.Name ++ "'s " ++ move.Name ++ " missed!"

/-- The message of a non-damaging move. -/
def usedMsg (attacker : Pokemon) (move : Move) : String :=
  attacker.Name ++ " used " ++ move.Name ++ "!"

/-- The message of a damaging hit; `defender` is the defender after the damage
was applied. -/
def hitMsg (attacker defender : Pokemon) (move : Move) (m : Multiplier) (damage : Int) :
    String :=
  attacker.Name ++ " used " ++ move.Name ++ "! " ++ effectivenessMsg m ++ " " ++
    toString damage ++ " damage! " ++
    (defender.Name ++ " HP: " ++ toString defender.HP ++ "/" ++ toString defender.MaxHP)

/-- What a call of `executeAttack` leaves behind: the returned string, both
combatants (the function receives pointers to them) and the generator. -/
structure AttackOutcome where
  msg : String
  attacker : Pokemon
  defender : Pokemon
  rand : Rand

/-- The function `executeAttack`. -/
def executeAttack (attacker defender : Pokemon) (rand : Rand) :
    Except Fault AttackOutcome :=
  match Intn attacker.Moves.length rand with
  | .error e => .error e
  | .ok (moveIndex, rand) =>
    match attacker.Moves[moveIndex.toNat]? with
    | none => .error .indexOutOfRange
    | some move =>
      match Intn 100 rand with
      | .error e => .error e
      | .ok (roll, rand) =>
        if roll ≥ move.Accuracy then
          .ok { msg := missMsg attacker move, attacker := attacker, defender := defender,
                rand := rand }
        else if move.Power > 0 then
          if defender.Defense = 0 then .error .divideByZero
          else
            match Intn 16 rand with
            | .error e => .error e
            | .ok (draw, rand) =>
              let randomFactor := add64 85 draw
              let m := typeMultiplier move.MoveType defender.Types
              let damage :=
                damageDealt attacker.Level move.Power attacker.Attack defender.Defense
                  randomFactor m
              let defender := { defender with HP := applyDamage defender.HP damage }
              .ok { msg := hitMsg attacker defender move m damage, attacker := attacker,
                    defender := defender, rand := rand }
        else
          .ok { msg := usedMsg attacker move, attacker := attacker, defender := defender,
                rand := rand }

/-- The index `moveIndex` that `executeAttack` draws first. -/
def moveIndexOf (attacker : Pokemon) (rand : Rand) : Nat :=
  ((rand.draws rand.pos : Int) % attacker.Moves.length).toNat

/-- The accuracy roll `rand.Intn(100)` that `executeAttack` draws second. -/
def accuracyRoll (rand : Rand) : Int :=
  (rand.draws (rand.pos + 1) : Int) % 100

/-- The value `randomFactor` that `executeAttack` computes from its third draw. -/
def randomFactorOf (rand : Rand) : Int :=
  85 + (rand.draws (rand.pos + 2) : Int) % 16

/-- The generator after `n` further draws. -/
def Rand.advance (rand : Rand) (n : Nat) : Rand :=
  { rand with pos := rand.pos + n }

/-- The damage of a hit of `attacker` on `defender` with `move`, the random
factor being the third draw of `rand`. -/
def hitDamage (attacker defender : Pokemon) (move : Move) (rand : Rand) : Int :=
  damageDealt attacker.Level move.Power attacker.Attack defender.Defense (randomFactorOf rand)
    (typeMultiplier move.MoveType defender.Types)

/-- The defender after that hit. -/
def hitDefender (attacker defender : Pokemon) (move : Move) (rand : Rand) : Pokemon :=
  { defender with HP := applyDamage defender.HP (hitDamage attacker defender move rand) }

/-! ## The damage formula as the specification words it -/

/-- The cycle water > fire > grass > water of the specification: `beats a b`
when type `a` beats type `b`. -/
def beats (a b : String) : Bool :=
  (a = "water" && b = "fire") || (a = "fire" && b = "grass") || (a = "grass" && b = "water")

/-- The multiplier of the specification: the first defender type, in list order,
that forms a matchup with the move type decides; ×2 if the move type beats it,
×1/2 if it beats the move type, ×1 if no defender type forms a matchup. -/
def specMultiplier (moveType : String) (defenderTypes : List String) : Multiplier :=
  match defenderTypes.find? (fun t => beats moveType t || beats t moveType) with
  | none => .one
  | some t => if beats moveType t then .two else .half

/-- The value `base` of the specification over the unbounded integers, every `/`
truncating. -/
def specBase (level power attack defense : Int) : Int :=
  Int.tdiv (Int.tdiv ((Int.tdiv (2 * level) 5 + 2) * power * attack) defense) 50 + 2

/-- The value `trunc(m * x)` for the three multipliers 1, 2 and 1/2. -/
def specScale (x : Int) : Multiplier → Int
  | .one => x
  | .two => 2 * x
  | .half => Int.tdiv x 2

/-- The damage of the specification over the unbounded integers:
`max(1, trunc(m * (base * rf / 100)))`. -/
def specDamage (level power attack defense rf : Int) (m : Multiplier) : Int :=
  max 1 (specScale (Int.tdiv (specBase level power attack defense * rf) 100) m)

/-- No product of the damage formula leaves the range of `int`: `2 * level`, the
product with the power, the product with the attack, and the product of `base`
with the random factor. -/
def ProductsFit (level power attack defense rf : Int) : Prop :=
  InInt64 (2 * level) ∧ InInt64 ((Int.tdiv (2 * level) 5 + 2) * power) ∧
    InInt64 ((Int.tdiv (2 * level) 5 + 2) * power * attack) ∧
    InInt64 (specBase level power attack defense * rf)

instance (level power attack defense rf : Int) :
    Decidable (ProductsFit level power attack defense rf) :=
  inferInstanceAs (Decidable (_ ∧ _ ∧ _ ∧ _))

/-- The quotient of the product by the defense is an `int`.  For a defense of at
least 1 this follows from `ProductsFit`; it fails only for the quotient of the
most negative `int` by `-1`. -/
def QuotientFits (level power attack defense : Int) : Prop :=
  InInt64 (Int.tdiv ((Int.tdiv (2 * level) 5 + 2) * power * attack) defense)

instance (level power attack defense : Int) :
    Decidable (QuotientFits level power attack defense) :=
  inferInstanceAs (Decidable (InInt64 _))

/-- The damage before the type multiplier is an integer that `float64` holds
exactly: its absolute value is at most `2^53`. -/
def ExactInFloat64 (level power attack defense rf : Int) : Prop :=
  -9007199254740992 ≤ Int.tdiv (specBase level power attack defense * rf) 100 ∧
    Int.tdiv (specBase level power attack defense * rf) 100 ≤ 9007199254740992

instance (level power attack defense rf : Int) :
    Decidable (ExactInFloat64 level power attack defense rf) :=
  inferInstanceAs (Decidable (_ ∧ _))

/-! ## `simulateBattle` -/

/-- The local variables of `simulateBattle` that the round loop reads and
writes: the two working copies, the round counter, the three slices of `result`
that grow during the loop, and the generator. -/
structure BattleState where
  playerPokemon : Pokemon
  opponentPokemon : Pokemon
  round : Int
  BattleLog : List String
  PlayerMoves : List String
  OpponentMoves : List String
  rand : Rand

/-- The log line that opens the battle. -/
def startMsg (player opponent : Pokemon) : String :=
  "Battle started: " ++ player.Name ++ " (Lv." ++ toString player.Level ++ ") vs " ++
    opponent.Name ++ " (Lv." ++ toString opponent.Level ++ ")"

/-- The log line that opens a round. -/
def roundMsg (round : Int) : String :=
  "Round " ++ toString round ++ ":"

/-- The log line of a faint. -/
def faintMsg (p : Pokemon) : String :=
  p.Name ++ " fainted!"

/-- The log line that names the winner. -/
def winsMsg (p : Pokemon) : String :=
  p.Name ++ " wins the battle!"

/-- The log line of a draw. -/
def drawMsg : String :=
  "The battle ended in a draw!"

/-- The block "player attacks": `executeAttack(&playerPokemon, &opponentPokemon)`,
the two appends, and the faint check on the opponent.  The flag tells whether the
block left the loop with `break`. -/
def playerAttacks (s : BattleState) : Except Fault (BattleState × Bool) :=
  match executeAttack s.playerPokemon s.opponentPokemon s.rand with
  | .error e => .error e
  | .ok out =>
    let s : BattleState :=
      { s with
        playerPokemon := out.attacker
        opponentPokemon := out.defender
        rand := out.rand
        BattleLog := s.BattleLog ++ [out.msg]
        PlayerMoves := s.PlayerMoves ++ [out.msg] }
    if s.opponentPokemon.HP ≤ 0 then
      .ok ({ s with BattleLog := s.BattleLog ++ [faintMsg s.opponentPokemon] }, true)
    else .ok (s, false)

/-- The block "opponent attacks": `executeAttack(&opponentPokemon, &playerPokemon)`,
the two appends, and the faint check on the player.  The flag tells whether the
block left the loop with `break`. -/
def opponentAttacks (s : BattleState) : Except Fault (BattleState × Bool) :=
  match executeAttack s.opponentPokemon s.playerPokemon s.rand with
  | .error e => .error e
  | .ok out =>
    let s : BattleState :=
      { s with
        opponentPokemon := out.attacker
        playerPokemon := out.defender
        rand := out.rand
        BattleLog := s.BattleLog ++ [out.msg]
        OpponentMoves := s.OpponentMoves ++ [out.msg] }
    if s.playerPokemon.HP ≤ 0 then
      .ok ({ s with BattleLog := s.BattleLog ++ [faintMsg s.playerPokemon] }, true)
    else .ok (s, false)

/-- One execution of the body of the round loop.  The flag tells whether the
body left the loop with `break`. -/
def battleRound (playerFirst : Bool) (s : BattleState) : Except Fault (BattleState × Bool) :=
  let s : BattleState := { s with round := add64 s.round 1 }
  let s : BattleState := { s with BattleLog := s.BattleLog ++ [roundMsg s.round] }
  if playerFirst then
    match playerAttacks s with
    | .error e => .error e
    | .ok (s, true) => .ok (s, true)
    | .ok (s, false) => opponentAttacks s
  else
    match opponentAttacks s with
    | .error e => .error e
    | .ok (s, true) => .ok (s, true)
    | .ok (s, false) => playerAttacks s

/-- The condition `round < maxRounds && playerPokemon.HP > 0 && opponentPokemon.HP > 0`
of the round loop. -/
def loopCond (maxRounds : Int) (s : BattleState) : Prop :=
  s.round < maxRounds ∧ s.playerPokemon.HP > 0 ∧ s.opponentPokemon.HP > 0

instance (maxRounds : Int) (s : BattleState) : Decidable (loopCond maxRounds s) :=
  inferInstanceAs
    (Decidable (s.round < maxRounds ∧ s.playerPokemon.HP > 0 ∧ s.opponentPokemon.HP > 0))

/-- The loop
`for round < maxRounds && playerPokemon.HP > 0 && opponentPokemon.HP > 0 { ... }`.
Every iteration consumes one unit of fuel; the model faults with `outOfFuel`
when the condition holds and no fuel is left. -/
def battleLoop (maxRounds : Int) (playerFirst : Bool) :
    Nat → BattleState → Except Fault BattleState
  | 0, s => if loopCond maxRounds s then .error .outOfFuel else .ok s
  | fuel + 1, s =>
    if loopCond maxRounds s then
      match battleRound playerFirst s with
      | .error e => .error e
      | .ok (s, true) => .ok s
      | .ok (s, false) => battleLoop maxRounds playerFirst fuel s
    else .ok s

/-- The statements of `simulateBattle` after the loop: the winner, the closing
log line and the final values. -/
def conclude (s : BattleState) : BattleResult :=
  if s.playerPokemon.HP ≤ 0 then
    { Winner := "opponent"
      Rounds := s.round
      BattleLog := s.BattleLog ++ [winsMsg s.opponentPokemon]
      PlayerHP := s.playerPokemon.HP
      OpponentHP := s.opponentPokemon.HP
      PlayerMoves := s.PlayerMoves
      OpponentMoves := s.OpponentMoves }
  else if s.opponentPokemon.HP ≤ 0 then
    { Winner := "player"
      Rounds := s.round
      BattleLog := s.BattleLog ++ [winsMsg s.playerPokemon]
      PlayerHP := s.playerPokemon.HP
      OpponentHP := s.opponentPokemon.HP
      PlayerMoves := s.PlayerMoves
      OpponentMoves := s.OpponentMoves }
  else
    { Winner := "draw"
      Rounds := s.round
      BattleLog := s.BattleLog ++ [drawMsg]
      PlayerHP := s.playerPokemon.HP
      OpponentHP := s.opponentPokemon.HP
      PlayerMoves := s.PlayerMoves
      OpponentMoves := s.OpponentMoves }

/-- The state of `simulateBattle` when the round loop is entered. -/
def initialState (player opponent : Pokemon) (rand : Rand) : BattleState :=
  { playerPokemon := player
    opponentPokemon := opponent
    round := 0
    BattleLog := [startMsg player opponent]
    PlayerMoves := []
    OpponentMoves := []
    rand := rand }

/-- The variable `playerFirst` of `simulateBattle`. -/
def playerActsFirst (player opponent : Pokemon) : Bool :=
  decide (player.Speed ≥ opponent.Speed)

/-- The state of `simulateBattle` when the round loop is left.  The fuel
`maxRounds.toNat` is one unit per admissible round. -/
def runBattle (player opponent : Pokemon) (maxRounds : Int) (rand : Rand) :
    Except Fault BattleState :=
  battleLoop maxRounds (playerActsFirst player opponent) maxRounds.toNat
    (initialState player opponent rand)

/-- The function `simulateBattle`, with the generator it starts from. -/
def simulateBattle (player opponent : Pokemon) (maxRounds : Int) (rand : Rand) :
    Except Fault BattleResult :=
  match runBattle player opponent maxRounds rand with
  | .error e => .error e
  | .ok s => .ok (conclude s)

/-! ## Notions used in the statements and proofs -/

/-- Decimal value of a list of digit characters. -/
def digitsValue (l : List Char) : Nat :=
  l.foldl (fun acc c => 10 * acc + (c.toNat - 48)) 0

/-- The integer a decimal numeral with an optional leading minus sign denotes. -/
def numeralValue : List Char → Int
  | '-' :: rest => -((digitsValue rest : Nat) : Int)
  | l => ((digitsValue l : Nat) : Int)

/-- The string is not the header line of any round. -/
def NotHeader (m : String) : Prop :=
  ∀ k : Int, m ≠ roundMsg k

/-- The second combatant is the first one up to the field `HP`. -/
def SameButHP (p q : Pokemon) : Prop :=
  q = { p with HP := q.HP }

/-- The side that attacks first in every round when `playerFirst` has the given
value. -/
def firstPokemon (playerFirst : Bool) (s : BattleState) : Pokemon :=
  if playerFirst then s.playerPokemon else s.opponentPokemon

/-- The side that attacks second. -/
def secondPokemon (playerFirst : Bool) (s : BattleState) : Pokemon :=
  if playerFirst then s.opponentPokemon else s.playerPokemon

/-- The move list of the side that attacks first. -/
def firstMoves (playerFirst : Bool) (s : BattleState) : List String :=
  if playerFirst then s.PlayerMoves else s.OpponentMoves

/-- The move list of the side that attacks second. -/
def secondMoves (playerFirst : Bool) (s : BattleState) : List String :=
  if playerFirst then s.OpponentMoves else s.PlayerMoves

/-- A combatant `executeAttack` can be called with, as attacker and as
defender, without a panic: a non-empty move list and a non-zero defense. -/
def Battleworthy (p : Pokemon) : Prop :=
  p.Moves ≠ [] ∧ p.Defense ≠ 0

instance (p : Pokemon) : Decidable (Battleworthy p) :=
  inferInstanceAs (Decidable (p.Moves ≠ [] ∧ p.Defense ≠ 0))

/-- The state of the loop body before the first attack: `round++` and the
append of the round header. -/
def startRound (s : BattleState) : BattleState :=
  { s with round := add64 s.round 1, BattleLog := s.BattleLog ++ [roundMsg (add64 s.round 1)] }

/-- What one execution of the loop body does to a state in which both sides
have positive health, told from the point of view of the side that attacks
first: the counter advances, the first side attacks, and the second side attacks
back unless it fainted. -/
def RoundEffect (playerFirst : Bool) (s t : BattleState) (brk : Bool) : Prop :=
  t.round = add64 s.round 1 ∧
  SameButHP (firstPokemon playerFirst s) (firstPokemon playerFirst t) ∧
  SameButHP (secondPokemon playerFirst s) (secondPokemon playerFirst t) ∧
  0 ≤ (firstPokemon playerFirst t).HP ∧
  (firstPokemon playerFirst t).HP ≤ (firstPokemon playerFirst s).HP ∧
  0 ≤ (secondPokemon playerFirst t).HP ∧
  (secondPokemon playerFirst t).HP ≤ (secondPokemon playerFirst s).HP ∧
  t.rand.draws = s.rand.draws ∧
  ∃ m1, NotHeader m1 ∧ firstMoves playerFirst t = firstMoves playerFirst s ++ [m1] ∧
    ((brk = true ∧ (secondPokemon playerFirst t).HP ≤ 0 ∧
        0 < (firstPokemon playerFirst t).HP ∧
        secondMoves playerFirst t = secondMoves playerFirst s ∧
        t.BattleLog = s.BattleLog ++
          [roundMsg t.round, m1, faintMsg (secondPokemon playerFirst t)]) ∨
     (0 < (secondPokemon playerFirst t).HP ∧
        ∃ m2, NotHeader m2 ∧ secondMoves playerFirst t = secondMoves playerFirst s ++ [m2] ∧
          ((brk = true ∧ (firstPokemon playerFirst t).HP ≤ 0 ∧
              t.BattleLog = s.BattleLog ++
                [roundMsg t.round, m1, m2, faintMsg (firstPokemon playerFirst t)]) ∨
           (brk = false ∧ 0 < (firstPokemon playerFirst t).HP ∧
              t.BattleLog = s.BattleLog ++ [roundMsg t.round, m1, m2]))))

/-! ## `simulateBattleHandler` -/

/-- The statements `rounds := requestData.Rounds; if rounds <= 0 { rounds = 5 }`
of `simulateBattleHandler`. -/
def defaultRounds (rounds : Int) : Int :=
  if rounds ≤ 0 then 5 else rounds

/-- The part of `simulateBattleHandler` after the request body is decoded: the
identity check (`none` stands for the error response "Both player and opponent
Pokemon are required"), the default of the round limit and the call of
`simulateBattle`. -/
def simulateBattleHandler (playerPokemon opponentPokemon : Pokemon) (rounds : Int)
    (rand : Rand) : Option (Except Fault BattleResult) :=
  if playerPokemon.ID = 0 ∨ opponentPokemon.ID = 0 then none
  else some (simulateBattle playerPokemon opponentPokemon (defaultRounds rounds) rand)

/-! ## The catalogue entries used as examples -/

/-- The entry `Bulbasaur` of `pokedex`. -/
def bulbasaur : Pokemon :=
  { ID := 1, Name := "Bulbasaur", Types := ["grass", "poison"], Level := 5, HP := 45,
    MaxHP := 45, Attack := 49, Defense := 49, Speed := 45,
    ImageURL := "/assets/sprites/bulbasaur.png",
    Moves := [
      { Name := "Tackle", MoveType := "normal", Power := 40, Accuracy := 100 },
      { Name := "Growl", MoveType := "normal", Power := 0, Accuracy := 100 },
      { Name := "Vine Whip", MoveType := "grass", Power := 45, Accuracy := 100 }] }

/-- The entry `Charmander` of `pokedex`. -/
def charmander : Pokemon :=
  { ID := 4, Name := "Charmander", Types := ["fire"], Level := 5, HP := 39,
    MaxHP := 39, Attack := 52, Defense := 43, Speed := 65,
    ImageURL := "/assets/sprites/charmander.png",
    Moves := [
      { Name := "Scratch", MoveType := "normal", Power := 40, Accuracy := 100 },
      { Name := "Growl", MoveType := "normal", Power := 0, Accuracy := 100 },
      { Name := "Ember", MoveType := "fire", Power := 40, Accuracy := 100 }] }

/-- The entry `Squirtle` of `pokedex`. -/
def squirtle : Pokemon :=
  { ID := 7, Name := "Squirtle", Types := ["water"], Level := 5, HP := 44,
    MaxHP := 44, Attack := 48, Defense := 65, Speed := 43,
    ImageURL := "/assets/sprites/squirtle.png",
    Moves := [
      { Name := "Tackle", MoveType := "normal", Power := 40, Accuracy := 100 },
      { Name := "Tail Whip", MoveType := "normal", Power := 0, Accuracy := 100 },
      { Name := "Water Gun", MoveType := "water", Power := 40, Accuracy := 100 }] }

/-- Squirtle three points of health away from fainting. -/
def weakSquirtle : Pokemon :=
  { squirtle with HP := 3 }

/-- The outcome of Charmander (player) against `weakSquirtle` with all raw draws
equal to 0: Scratch deals 3 damage and ends the battle in round 1. -/
def faintInRoundOne : BattleResult :=
  { Winner := "player"
    Rounds := 1
    BattleLog := ["Battle started: Charmander (Lv.5) vs Squirtle (Lv.5)", "Round 1:",
      "Charmander used Scratch!  3 damage! Squirtle HP: 0/44", "Squirtle fainted!",
      "Charmander wins the battle!"]
    PlayerHP := 39
    OpponentHP := 0
    PlayerMoves := ["Charmander used Scratch!  3 damage! Squirtle HP: 0/44"]
    OpponentMoves := [] }

/-- The outcome of Bulbasaur (player) against Charmander over two rounds with all
raw draws equal to 1: both sides use Growl. -/
def growlDraw : BattleResult :=
  { Winner := "draw"
    Rounds := 2
    BattleLog := ["Battle started: Bulbasaur (Lv.5) vs Charmander (Lv.5)", "Round 1:",
      "Charmander used Growl!", "Bulbasaur used Growl!", "Round 2:",
      "Charmander used Growl!", "Bulbasaur used Growl!", "The battle ended in a draw!"]
    PlayerHP := 45
    OpponentHP := 39
    PlayerMoves := ["Bulbasaur used Growl!", "Bulbasaur used Growl!"]
    OpponentMoves := ["Charmander used Growl!", "Charmander used Growl!"] }

/-- The outcome of Bulbasaur (player) against Charmander over three rounds with
all raw draws equal to 0: Scratch and Tackle at random factor 85. -/
def threeRoundDraw : BattleResult :=
  { Winner := "draw"
    Rounds := 3
    BattleLog := ["Battle started: Bulbasaur (Lv.5) vs Charmander (Lv.5)", "Round 1:",
      "Charmander used Scratch!  4 damage! Bulbasaur HP: 41/45",
      "Bulbasaur used Tackle!  4 damage! Charmander HP: 35/39", "Round 2:",
      "Charmander used Scratch!  4 damage! Bulbasaur HP: 37/45",
      "Bulbasaur used Tackle!  4 damage! Charmander HP: 31/39", "Round 3:",
      "Charmander used Scratch!  4 damage! Bulbasaur HP: 33/45",
      "Bulbasaur used Tackle!  4 damage! Charmander HP: 27/39",
      "The battle ended in a draw!"]
    PlayerHP := 33
    OpponentHP := 27
    PlayerMoves := ["Bulbasaur used Tackle!  4 damage! Charmander HP: 35/39",
      "Bulbasaur used Tackle!  4 damage! Charmander HP: 31/39",
      "Bulbasaur used Tackle!  4 damage! Charmander HP: 27/39"]
    OpponentMoves := ["Charmander used Scratch!  4 damage! Bulbasaur HP: 41/45",
      "Charmander used Scratch!  4 damage! Bulbasaur HP: 37/45",
      "Charmander used Scratch!  4 damage! Bulbasaur HP: 33/45"] }

/-- A generator for the first attack of a battle: move index 0, accuracy roll 0
and random factor 92. -/
def scenarioRand : Rand :=
  { draws := fun i => if i = 2 then 7 else 0, pos := 0 }

/-- A move of very large power. -/
def strike : Move :=
  { Name := "Strike", MoveType := "normal", Power := 112589990684262388, Accuracy := 100 }

/-- An attacker of level 5 and attack 1 whose only move is `strike`. -/
def heavyHitter : Pokemon :=
  { charmander with Attack := 1, Moves := [strike] }

/-- A defender of defense 1 with a health of `10^16`. -/
def sturdyTarget : Pokemon :=
  { bulbasaur with Defense := 1, HP := 10000000000000000, MaxHP := 10000000000000000 }

/-- A water move whose power makes the first product of the damage formula
overflow: `4 * (2^62 - 10^6)` wraps to `-4000000`. -/
def torrent : Move :=
  { Name := "Torrent", MoveType := "water", Power := 4611686018426387904, Accuracy := 100 }

/-- An attacker of level 5 and attack 1 whose only move is `torrent`. -/
def overflowHitter : Pokemon :=
  { squirtle with Attack := 1, Moves := [torrent] }

/-- A fire-type defender of defense 1. -/
def fireTarget : Pokemon :=
  { charmander with Defense := 1 }

/-- A defender of defense 1 none of whose types forms a matchup with water. -/
def neutralTarget : Pokemon :=
  { charmander with Types := ["normal"], Defense := 1 }

/-- Bulbasaur with a health of `-5`. -/
def woundedBulbasaur : Pokemon :=
  { bulbasaur with HP := -5 }

/-- Bulbasaur with the most negative health an `int` can hold. -/
def debtor : Pokemon :=
  { bulbasaur with HP := -9223372036854775808 }

/-- Squirtle with the defense set to `d`. -/
def squirtleWithDefense (d : Int) : Pokemon :=
  { squirtle with Defense := d }

/-- A generator whose raw draws are all equal to `v`. -/
def constRand (v : Nat) : Rand :=
  { draws := fun _ => v, pos := 0 }

/-! ## Machine arithmetic -/

theorem wrap64_inInt64 (x : Int) : InInt64 (wrap64 x) := by
  unfold InInt64 wrap64; omega

theorem wrap64_of_inInt64 {x : Int} (h : InInt64 x) : wrap64 x = x := by
  unfold InInt64 at h; unfold wrap64; omega

theorem wrap64_le_self {x : Int} (h : -9223372036854775808 ≤ x) : wrap64 x ≤ x := by
  unfold wrap64; omega

theorem tdiv_of_nonneg {a b : Int} (ha : 0 ≤ a) (hb : 0 < b) : Int.tdiv a b = a / b :=
  Int.tdiv_eq_ediv ha (le_of_lt hb)

theorem tdiv_of_neg {a b : Int} (ha : a < 0) (hb : 0 < b) : Int.tdiv a b = -((-a) / b) := by
  have h : Int.tdiv (-(-a)) b = -(Int.tdiv (-a) b) := Int.neg_tdiv (-a) b
  rw [neg_neg] at h
  rw [h, Int.tdiv_eq_ediv (by omega) (le_of_lt hb)]

theorem dropBits_pow_le (fuel a : Nat) : dropBits fuel a = 0 ∨ 2 ^ dropBits fuel a ≤ a := by
  induction fuel generalizing a with
  | zero => left; rfl
  | succ f ih =>
    unfold dropBits
    split
    · left; rfl
    · right
      rcases ih (a / 2) with h | h
      · rw [h]; norm_num; omega
      · rw [pow_succ]; omega

theorem float64OfNat_le (a : Nat) : float64OfNat a ≤ 2 * a := by
  unfold float64OfNat
  simp only
  rcases dropBits_pow_le 11 a with h | h
  · rw [h]; simp [Nat.mod_one]; omega
  · generalize dropBits 11 a = e at h ⊢
    have hq : 1 ≤ a / 2 ^ e := Nat.div_pos h (by positivity)
    have hmul : a / 2 ^ e * 2 ^ e ≤ a := Nat.div_mul_le_self a (2 ^ e)
    have hpos : 0 < 2 ^ e := by positivity
    split
    · have : 2 ^ e ≤ a / 2 ^ e * 2 ^ e := Nat.le_mul_of_pos_left _ hq
      rw [Nat.add_mul]; omega
    · omega

theorem float64OfNat_pos {a : Nat} (ha : 1 ≤ a) : 1 ≤ float64OfNat a := by
  unfold float64OfNat
  simp only
  rcases dropBits_pow_le 11 a with h | h
  · rw [h]; simp [Nat.mod_one]; omega
  · generalize dropBits 11 a = e at h ⊢
    have hq : 1 ≤ a / 2 ^ e := Nat.div_pos h (by positivity)
    have hpos : 0 < 2 ^ e := by positivity
    split
    · exact Nat.mul_pos (by omega) hpos
    · exact Nat.mul_pos (by omega) hpos

theorem float64OfNat_exact {a : Nat} (ha : a ≤ 9007199254740992) : float64OfNat a = a := by
  rcases Nat.lt_or_ge a 9007199254740992 with h | h
  · unfold float64OfNat
    have : dropBits 11 a = 0 := by unfold dropBits; simp [h]
    simp [this, Nat.mod_one]
  · have : a = 9007199254740992 := by omega
    subst this; decide

theorem float64OfInt_le (x : Int) : float64OfInt x ≤ 2 * (x.natAbs : Int) := by
  unfold float64OfInt
  have h := float64OfNat_le x.natAbs
  split <;> omega

theorem float64OfInt_pos {x : Int} (hx : 1 ≤ x) : 1 ≤ float64OfInt x := by
  unfold float64OfInt
  have h := float64OfNat_pos (a := x.natAbs) (by omega)
  split <;> omega

theorem float64OfInt_exact {x : Int}
    (hx : -9007199254740992 ≤ x ∧ x ≤ 9007199254740992) : float64OfInt x = x := by
  unfold float64OfInt
  have h := float64OfNat_exact (a := x.natAbs) (by omega)
  rw [h]
  split <;> omega

theorem scaleDamage_le (x : Int) (m : Multiplier) : scaleDamage x m ≤ 4 * (x.natAbs : Int) := by
  have h := float64OfInt_le x
  cases m with
  | one => simp only [scaleDamage]; omega
  | two => simp only [scaleDamage]; omega
  | half =>
    simp only [scaleDamage]
    rcases Int.lt_or_le (float64OfInt x) 0 with hf | hf
    · rw [tdiv_of_neg hf (by decide)]; omega
    · rw [tdiv_of_nonneg hf (by decide)]; omega

theorem quo64_100_natAbs (y : Int) (hy : InInt64 y) :
    ((quo64 y 100).natAbs : Int) ≤ 92233720368547758 := by
  unfold InInt64 at hy
  unfold quo64
  rcases Int.lt_or_le y 0 with h | h
  · rw [tdiv_of_neg h (by decide)]
    rw [wrap64_of_inInt64 (by unfold InInt64; omega)]
    omega
  · rw [tdiv_of_nonneg h (by decide)]
    rw [wrap64_of_inInt64 (by unfold InInt64; omega)]
    omega

/-- A hit with a move of positive power deals at least 1 damage, and the amount
stays far below the largest `int`. -/
theorem damageDealt_bounds (level power attack defense rf : Int) (m : Multiplier) :
    1 ≤ damageDealt level power attack defense rf m ∧
      damageDealt level power attack defense rf m ≤ 368934881474191032 := by
  unfold damageDealt
  simp only
  have h1 := quo64_100_natAbs (mul64 (baseDamage level power attack defense) rf)
    (wrap64_inInt64 _)
  have h2 := scaleDamage_le (quo64 (mul64 (baseDamage level power attack defense) rf) 100) m
  split <;> omega

theorem applyDamage_nonneg (hp damage : Int) : 0 ≤ applyDamage hp damage := by
  unfold applyDamage
  simp only
  split <;> omega

theorem applyDamage_le {hp damage : Int} (hhp : 0 ≤ hp) (h1 : 1 ≤ damage)
    (h2 : damage ≤ 368934881474191032) : applyDamage hp damage ≤ hp := by
  unfold applyDamage sub64
  simp only
  have := wrap64_le_self (x := hp - damage) (by omega)
  split <;> omega

theorem applyDamage_eq_max {hp damage : Int} (h : InInt64 (hp - damage)) :
    applyDamage hp damage = max 0 (hp - damage) := by
  unfold applyDamage sub64
  simp only
  rw [wrap64_of_inInt64 h]
  split <;> omega

/-! ## Decimal numerals -/

theorem digitChar_toNat {x : Nat} (hx : x < 10) : (Nat.digitChar x).toNat - 48 = x := by
  interval_cases x <;> rfl

theorem digitChar_ne_colon {x : Nat} (hx : x < 10) : Nat.digitChar x ≠ ':' := by
  interval_cases x <;> decide

theorem digitChar_ne_minus {x : Nat} (hx : x < 10) : Nat.digitChar x ≠ '-' := by
  interval_cases x <;> decide

theorem getLast?_cons_of_ne_nil {α : Type} (a : α) {l : List α} (h : l ≠ []) :
    (a :: l).getLast? = l.getLast? := by
  cases l with
  | nil => exact absurd rfl h
  | cons b t => exact List.getLast?_cons_cons

theorem toDigitsCore_getLast (fuel n : Nat) (ds : List Char) (hds : ds ≠ []) :
    (Nat.toDigitsCore 10 fuel n ds).getLast? = ds.getLast? := by
  induction fuel generalizing n ds with
  | zero => rfl
  | succ f ih =>
    unfold Nat.toDigitsCore
    simp only
    split
    · exact getLast?_cons_of_ne_nil _ hds
    · rw [ih _ _ (List.cons_ne_nil _ _)]
      exact getLast?_cons_of_ne_nil _ hds

theorem toDigits_getLast (n : Nat) :
    (Nat.toDigits 10 n).getLast? = some (Nat.digitChar (n % 10)) := by
  unfold Nat.toDigits Nat.toDigitsCore
  simp only
  split
  · rfl
  · rw [toDigitsCore_getLast _ _ _ (List.cons_ne_nil _ _)]
    rfl

theorem toDigitsCore_head (fuel n : Nat) (ds : List Char) :
    ∃ x rest, x < 10 ∧ Nat.toDigitsCore 10 (fuel + 1) n ds = Nat.digitChar x :: rest := by
  induction fuel generalizing n ds with
  | zero =>
    refine ⟨n % 10, ds, Nat.mod_lt _ (by decide), ?_⟩
    unfold Nat.toDigitsCore
    simp only
    split
    · rfl
    · rfl
  | succ f ih =>
    unfold Nat.toDigitsCore
    simp only
    split
    · exact ⟨n % 10, ds, Nat.mod_lt _ (by decide), rfl⟩
    · exact ih _ _

theorem foldl_toDigitsCore (fuel n : Nat) (ds : List Char) (h : n < fuel) :
    (Nat.toDigitsCore 10 fuel n ds).foldl (fun acc c => 10 * acc + (c.toNat - 48)) 0 =
      ds.foldl (fun acc c => 10 * acc + (c.toNat - 48)) n := by
  induction fuel generalizing n ds with
  | zero => omega
  | succ f ih =>
    unfold Nat.toDigitsCore
    simp only
    have hd := digitChar_toNat (Nat.mod_lt n (by decide : 10 > 0))
    split
    · rename_i h0
      simp only [List.foldl_cons, hd]
      have : n % 10 = n := by omega
      rw [Nat.mul_zero, Nat.zero_add, this]
    · rename_i h0
      rw [ih _ _ (by omega)]
      simp only [List.foldl_cons, hd]
      have : 10 * (n / 10) + n % 10 = n := Nat.div_add_mod n 10
      rw [this]

theorem digitsValue_toDigits (n : Nat) : digitsValue (Nat.toDigits 10 n) = n := by
  unfold digitsValue Nat.toDigits
  rw [foldl_toDigitsCore _ _ _ (Nat.lt_succ_self n)]
  rfl

theorem toString_nat_data (n : Nat) : (toString n).data = Nat.toDigits 10 n := rfl

theorem numeralValue_toString (k : Int) : numeralValue (toString k).data = k := by
  cases k with
  | ofNat m =>
    show numeralValue (toString m).data = _
    rw [toString_nat_data]
    obtain ⟨x, rest, hx, hrest⟩ := toDigitsCore_head m m []
    have hval := digitsValue_toDigits m
    unfold Nat.toDigits at hval ⊢
    rw [hrest] at hval ⊢
    unfold numeralValue
    split
    · rename_i heq
      have := (List.cons.inj heq).1
      exact absurd this (digitChar_ne_minus hx)
    · rw [hval]; rfl
  | negSucc m =>
    show numeralValue ("-" ++ toString (m + 1)).data = _
    rw [String.data_append, toString_nat_data]
    show numeralValue ('-' :: Nat.toDigits 10 (m + 1)) = _
    unfold numeralValue
    simp only
    rw [digitsValue_toDigits]
    rfl

theorem toString_int_injective {a b : Int} (h : toString a = toString b) : a = b := by
  rw [← numeralValue_toString a, ← numeralValue_toString b, h]

theorem toString_int_getLast (k : Int) :
    ∃ c, (toString k).data.getLast? = some c ∧ c ≠ ':' := by
  cases k with
  | ofNat m =>
    refine ⟨Nat.digitChar (m % 10), ?_, digitChar_ne_colon (Nat.mod_lt m (by decide))⟩
    show (toString m).data.getLast? = _
    rw [toString_nat_data, toDigits_getLast]
  | negSucc m =>
    refine ⟨Nat.digitChar ((m + 1) % 10), ?_, digitChar_ne_colon (Nat.mod_lt _ (by decide))⟩
    show ("-" ++ toString (m + 1)).data.getLast? = _
    rw [String.data_append, toString_nat_data]
    have hne : Nat.toDigits 10 (m + 1) ≠ [] := by
      intro h0
      have := toDigits_getLast (m + 1)
      rw [h0] at this
      cases this
    rw [List.getLast?_append_of_ne_nil _ hne, toDigits_getLast]

/-! ## The lines of the log -/

theorem roundMsg_injective {a b : Int} (h : roundMsg a = roundMsg b) : a = b := by
  have hd := congrArg String.data h
  unfold roundMsg at hd
  simp only [String.data_append] at hd
  have h2 := List.append_cancel_left (List.append_cancel_right hd)
  exact toString_int_injective (String.ext h2)

theorem roundMsg_getLast (k : Int) : (roundMsg k).data.getLast? = some ':' := by
  unfold roundMsg
  rw [String.data_append]
  exact List.getLast?_concat _

theorem notHeader_of_getLast {m : String} {c : Char} (h : m.data.getLast? = some c)
    (hc : c ≠ ':') : NotHeader m := by
  intro k hk
  rw [hk, roundMsg_getLast] at h
  exact hc (Option.some.inj h).symm

theorem getLast_append_literal (s t : String) (c : Char) (h : t.data.getLast? = some c) :
    (s ++ t).data.getLast? = some c := by
  rw [String.data_append, List.getLast?_append, h]
  rfl

theorem missMsg_notHeader (a : Pokemon) (move : Move) : NotHeader (missMsg a move) :=
  notHeader_of_getLast (c := '!') (getLast_append_literal _ _ _ rfl) (by decide)

theorem usedMsg_notHeader (a : Pokemon) (move : Move) : NotHeader (usedMsg a move) :=
  notHeader_of_getLast (c := '!') (getLast_append_literal _ _ _ rfl) (by decide)

theorem faintMsg_notHeader (p : Pokemon) : NotHeader (faintMsg p) :=
  notHeader_of_getLast (c := '!') (getLast_append_literal _ _ _ rfl) (by decide)

theorem winsMsg_notHeader (p : Pokemon) : NotHeader (winsMsg p) :=
  notHeader_of_getLast (c := '!') (getLast_append_literal _ _ _ rfl) (by decide)

theorem drawMsg_notHeader : NotHeader drawMsg :=
  notHeader_of_getLast (c := '!') rfl (by decide)

theorem startMsg_notHeader (p q : Pokemon) : NotHeader (startMsg p q) :=
  notHeader_of_getLast (c := ')') (getLast_append_literal _ _ _ rfl) (by decide)

theorem hitMsg_notHeader (a d : Pokemon) (move : Move) (m : Multiplier) (damage : Int) :
    NotHeader (hitMsg a d move m damage) := by
  obtain ⟨c, h1, h2⟩ := toString_int_getLast d.MaxHP
  refine notHeader_of_getLast (c := c) ?_ h2
  unfold hitMsg
  exact getLast_append_literal _ _ _ (getLast_append_literal _ _ _ h1)

/-! ## `executeAttack` -/

theorem Intn_of_pos {n : Int} (hn : 0 < n) (r : Rand) :
    Intn n r = .ok ((r.draws r.pos : Int) % n, r.advance 1) := by
  unfold Intn Rand.advance
  rw [if_neg (by omega)]

theorem randomFactorOf_bounds (r : Rand) : 85 ≤ randomFactorOf r ∧ randomFactorOf r ≤ 100 := by
  unfold randomFactorOf; omega

theorem accuracyRoll_bounds (r : Rand) : 0 ≤ accuracyRoll r ∧ accuracyRoll r < 100 := by
  unfold accuracyRoll; omega

theorem moveIndexOf_lt {a : Pokemon} (h : a.Moves ≠ []) (r : Rand) :
    moveIndexOf a r < a.Moves.length := by
  unfold moveIndexOf
  have hpos : 0 < a.Moves.length := List.length_pos.mpr h
  have h1 := Int.emod_lt_of_pos (r.draws r.pos : Int) (b := (a.Moves.length : Int)) (by omega)
  have h2 := Int.emod_nonneg (r.draws r.pos : Int) (b := (a.Moves.length : Int)) (by omega)
  omega

/-- With a non-empty move list the selected index is in range. -/
theorem selected_move_exists {a : Pokemon} (h : a.Moves ≠ []) (r : Rand) :
    ∃ move, a.Moves[moveIndexOf a r]? = some move :=
  ⟨a.Moves.get ⟨moveIndexOf a r, moveIndexOf_lt h r⟩,
    by rw [List.getElem?_eq_getElem (moveIndexOf_lt h r)]; rfl⟩

/-- The three outcomes of `executeAttack` once the selected move is known. -/
theorem executeAttack_eq (a d : Pokemon) (r : Rand) (move : Move)
    (hmove : a.Moves[moveIndexOf a r]? = some move) :
    executeAttack a d r =
      if accuracyRoll r ≥ move.Accuracy then
        .ok { msg := missMsg a move, attacker := a, defender := d, rand := r.advance 2 }
      else if move.Power > 0 then
        if d.Defense = 0 then .error .divideByZero
        else
          .ok { msg := hitMsg a (hitDefender a d move r) move
                  (typeMultiplier move.MoveType d.Types) (hitDamage a d move r),
                attacker := a,
                defender := hitDefender a d move r,
                rand := r.advance 3 }
      else
        .ok { msg := usedMsg a move, attacker := a, defender := d, rand := r.advance 2 } := by
  have hne : a.Moves ≠ [] := by
    intro h0
    rw [h0] at hmove
    simp at hmove
  have hpos : (0 : Int) < a.Moves.length := by
    have := List.length_pos.mpr hne
    omega
  have hrf : add64 85 ((r.draws (r.pos + 1 + 1) : Int) % 16) = randomFactorOf r := by
    unfold add64 randomFactorOf
    rw [wrap64_of_inInt64 (by unfold InInt64; omega)]
  unfold executeAttack
  rw [Intn_of_pos hpos]
  simp only
  unfold moveIndexOf at hmove
  rw [hmove]
  simp only
  rw [Intn_of_pos (by decide)]
  simp only
  rw [Intn_of_pos (by decide)]
  simp only [Rand.advance, hrf, accuracyRoll, hitDefender, hitDamage]

theorem executeAttack_of_empty {a : Pokemon} (d : Pokemon) (r : Rand) (h : a.Moves = []) :
    executeAttack a d r = .error .invalidIntnArgument := by
  unfold executeAttack Intn
  simp [h]

/-- Inversion of a successful call of `executeAttack`: a miss, a damaging hit or
a non-damaging move. -/
theorem executeAttack_ok_inv {a d : Pokemon} {r : Rand} {out : AttackOutcome}
    (h : executeAttack a d r = .ok out) :
    ∃ move, a.Moves[moveIndexOf a r]? = some move ∧
      ((accuracyRoll r ≥ move.Accuracy ∧
          out = { msg := missMsg a move, attacker := a, defender := d, rand := r.advance 2 }) ∨
       (accuracyRoll r < move.Accuracy ∧ move.Power > 0 ∧ d.Defense ≠ 0 ∧
          out = { msg := hitMsg a (hitDefender a d move r) move
                    (typeMultiplier move.MoveType d.Types) (hitDamage a d move r),
                  attacker := a, defender := hitDefender a d move r, rand := r.advance 3 }) ∨
       (accuracyRoll r < move.Accuracy ∧ move.Power ≤ 0 ∧
          out = { msg := usedMsg a move, attacker := a, defender := d,
                  rand := r.advance 2 })) := by
  by_cases hne : a.Moves = []
  · rw [executeAttack_of_empty d r hne] at h
    cases h
  · obtain ⟨move, hmove⟩ := selected_move_exists hne r
    refine ⟨move, hmove, ?_⟩
    rw [executeAttack_eq a d r move hmove] at h
    by_cases hacc : accuracyRoll r ≥ move.Accuracy
    · rw [if_pos hacc] at h
      left
      exact ⟨hacc, (Except.ok.inj h).symm⟩
    · rw [if_neg hacc] at h
      right
      by_cases hpow : move.Power > 0
      · rw [if_pos hpow] at h
        by_cases hdef : d.Defense = 0
        · rw [if_pos hdef] at h
          cases h
        · rw [if_neg hdef] at h
          left
          exact ⟨by omega, hpow, hdef, (Except.ok.inj h).symm⟩
      · rw [if_neg hpow] at h
        right
        exact ⟨by omega, by omega, (Except.ok.inj h).symm⟩

/-- A call of `executeAttack` with a battleworthy attacker and defender returns. -/
theorem executeAttack_total {a d : Pokemon} (r : Rand) (ha : a.Moves ≠ [])
    (hd : d.Defense ≠ 0) : ∃ out, executeAttack a d r = .ok out := by
  obtain ⟨move, hmove⟩ := selected_move_exists ha r
  rw [executeAttack_eq a d r move hmove, if_neg hd]
  by_cases hacc : accuracyRoll r ≥ move.Accuracy
  · rw [if_pos hacc]
    exact ⟨_, rfl⟩
  · rw [if_neg hacc]
    by_cases hpow : move.Power > 0
    · rw [if_pos hpow]
      exact ⟨_, rfl⟩
    · rw [if_neg hpow]
      exact ⟨_, rfl⟩

theorem SameButHP.refl (p : Pokemon) : SameButHP p p := by
  unfold SameButHP; rfl

theorem SameButHP.trans {p q r : Pokemon} (h1 : SameButHP p q) (h2 : SameButHP q r) :
    SameButHP p r := by
  unfold SameButHP at *
  rw [h2, h1]

theorem SameButHP.battleworthy {p q : Pokemon} (h : SameButHP p q) (hp : Battleworthy p) :
    Battleworthy q := by
  unfold SameButHP at h
  unfold Battleworthy at *
  rw [h]
  exact hp

theorem hitDefender_sameButHP (a d : Pokemon) (move : Move) (r : Rand) :
    SameButHP d (hitDefender a d move r) := by
  unfold SameButHP hitDefender; rfl

/-- The effect of a successful `executeAttack` on a defender with non-negative
health: the attacker is untouched, the defender changes in `HP` at most, and its
health stays between 0 and the earlier value. -/
theorem executeAttack_effect {a d : Pokemon} {r : Rand} {out : AttackOutcome}
    (h : executeAttack a d r = .ok out) (hhp : 0 ≤ d.HP) :
    out.attacker = a ∧ SameButHP d out.defender ∧ 0 ≤ out.defender.HP ∧
      out.defender.HP ≤ d.HP ∧ out.rand.draws = r.draws ∧ NotHeader out.msg := by
  obtain ⟨move, -, hcase⟩ := executeAttack_ok_inv h
  rcases hcase with ⟨-, rfl⟩ | ⟨-, -, -, rfl⟩ | ⟨-, -, rfl⟩
  · exact ⟨rfl, SameButHP.refl d, hhp, le_refl _, rfl, missMsg_notHeader a move⟩
  · have hb := damageDealt_bounds a.Level move.Power a.Attack d.Defense (randomFactorOf r)
      (typeMultiplier move.MoveType d.Types)
    refine ⟨rfl, hitDefender_sameButHP a d move r, ?_, ?_, rfl, hitMsg_notHeader _ _ _ _ _⟩
    · exact applyDamage_nonneg _ _
    · exact applyDamage_le hhp hb.1 hb.2
  · exact ⟨rfl, SameButHP.refl d, hhp, le_refl _, rfl, usedMsg_notHeader a move⟩

/-! ## The attack blocks and the loop body -/

/-- The block "player attacks" on an opponent with non-negative health. -/
theorem playerAttacks_effect {s t : BattleState} {brk : Bool}
    (h : playerAttacks s = .ok (t, brk)) (hhp : 0 ≤ s.opponentPokemon.HP) :
    t.playerPokemon = s.playerPokemon ∧ SameButHP s.opponentPokemon t.opponentPokemon ∧
      0 ≤ t.opponentPokemon.HP ∧ t.opponentPokemon.HP ≤ s.opponentPokemon.HP ∧
      t.round = s.round ∧ t.rand.draws = s.rand.draws ∧
      t.OpponentMoves = s.OpponentMoves ∧ (brk = true ↔ t.opponentPokemon.HP ≤ 0) ∧
      ∃ m, NotHeader m ∧ t.PlayerMoves = s.PlayerMoves ++ [m] ∧
        t.BattleLog = s.BattleLog ++
          (if brk = true then [m, faintMsg t.opponentPokemon] else [m]) := by
  unfold playerAttacks at h
  cases hex : executeAttack s.playerPokemon s.opponentPokemon s.rand with
  | error e => rw [hex] at h; cases h
  | ok out =>
    rw [hex] at h
    obtain ⟨h1, h2, h3, h4, h5, h6⟩ := executeAttack_effect hex hhp
    simp only at h
    by_cases hf : out.defender.HP ≤ 0
    · rw [if_pos hf] at h
      obtain ⟨rfl, rfl⟩ := Prod.mk.inj (Except.ok.inj h)
      exact ⟨h1, h2, h3, h4, rfl, h5, rfl, by simpa using hf, out.msg, h6, rfl, by simp⟩
    · rw [if_neg hf] at h
      obtain ⟨rfl, rfl⟩ := Prod.mk.inj (Except.ok.inj h)
      exact ⟨h1, h2, h3, h4, rfl, h5, rfl, by simpa using hf, out.msg, h6, rfl, by simp⟩

/-- The block "opponent attacks" on a player with non-negative health. -/
theorem opponentAttacks_effect {s t : BattleState} {brk : Bool}
    (h : opponentAttacks s = .ok (t, brk)) (hhp : 0 ≤ s.playerPokemon.HP) :
    t.opponentPokemon = s.opponentPokemon ∧ SameButHP s.playerPokemon t.playerPokemon ∧
      0 ≤ t.playerPokemon.HP ∧ t.playerPokemon.HP ≤ s.playerPokemon.HP ∧
      t.round = s.round ∧ t.rand.draws = s.rand.draws ∧
      t.PlayerMoves = s.PlayerMoves ∧ (brk = true ↔ t.playerPokemon.HP ≤ 0) ∧
      ∃ m, NotHeader m ∧ t.OpponentMoves = s.OpponentMoves ++ [m] ∧
        t.BattleLog = s.BattleLog ++
          (if brk = true then [m, faintMsg t.playerPokemon] else [m]) := by
  unfold opponentAttacks at h
  cases hex : executeAttack s.opponentPokemon s.playerPokemon s.rand with
  | error e => rw [hex] at h; cases h
  | ok out =>
    rw [hex] at h
    obtain ⟨h1, h2, h3, h4, h5, h6⟩ := executeAttack_effect hex hhp
    simp only at h
    by_cases hf : out.defender.HP ≤ 0
    · rw [if_pos hf] at h
      obtain ⟨rfl, rfl⟩ := Prod.mk.inj (Except.ok.inj h)
      exact ⟨h1, h2, h3, h4, rfl, h5, rfl, by simpa using hf, out.msg, h6, rfl, by simp⟩
    · rw [if_neg hf] at h
      obtain ⟨rfl, rfl⟩ := Prod.mk.inj (Except.ok.inj h)
      exact ⟨h1, h2, h3, h4, rfl, h5, rfl, by simpa using hf, out.msg, h6, rfl, by simp⟩

/-- The state the loop body reaches before the first attack: the counter is
advanced and the round header is logged. -/
theorem battleRound_eq (playerFirst : Bool) (s : BattleState) :
    battleRound playerFirst s =
      if playerFirst = true then
        match playerAttacks (startRound s) with
        | .error e => .error e
        | .ok (s, true) => .ok (s, true)
        | .ok (s, false) => opponentAttacks s
      else
        match opponentAttacks (startRound s) with
        | .error e => .error e
        | .ok (s, true) => .ok (s, true)
        | .ok (s, false) => playerAttacks s := by
  unfold battleRound
  rfl

/-- One execution of the loop body, started with both sides at positive health,
has the effect `RoundEffect`. -/
theorem battleRound_effect {playerFirst : Bool} {s t : BattleState} {brk : Bool}
    (h : battleRound playerFirst s = .ok (t, brk)) (hp : 0 < s.playerPokemon.HP)
    (ho : 0 < s.opponentPokemon.HP) : RoundEffect playerFirst s t brk := by
  rw [battleRound_eq] at h
  cases playerFirst with
  | true =>
    simp only [if_true] at h
    cases hpa : playerAttacks (startRound s) with
    | error e => rw [hpa] at h; cases h
    | ok res =>
      obtain ⟨u, b⟩ := res
      rw [hpa] at h
      obtain ⟨a1, a2, a3, a4, a5, a6, a7, a8, m1, an, a9, a10⟩ :=
        playerAttacks_effect hpa (le_of_lt ho)
      simp only [startRound] at a1 a2 a3 a4 a5 a6 a7 a9 a10
      cases b with
      | true =>
        simp only at h
        obtain ⟨rfl, rfl⟩ := Prod.mk.inj (Except.ok.inj h)
        simp only [RoundEffect, firstPokemon, secondPokemon, firstMoves, secondMoves, if_true]
        refine ⟨a5, ?_, a2, ?_, ?_, a3, a4, a6, m1, an, a9,
          Or.inl ⟨trivial, a8.mp rfl, ?_, a7, ?_⟩⟩
        · rw [a1]; exact SameButHP.refl _
        · rw [a1]; omega
        · rw [a1]
        · rw [a1]; exact hp
        · rw [a10, a5]; simp
      | false =>
        simp only at h
        have hu : 0 < u.opponentPokemon.HP := by
          by_contra hc
          have := a8.mpr (by omega)
          cases this
        obtain ⟨b1, b2, b3, b4, b5, b6, b7, b8, m2, bn, b9, b10⟩ :=
          opponentAttacks_effect h (by rw [a1]; omega)
        simp only [RoundEffect, firstPokemon, secondPokemon, firstMoves, secondMoves, if_true]
        refine ⟨by rw [b5, a5], ?_, ?_, b3, ?_, ?_, ?_, by rw [b6, a6], m1, an,
          by rw [b7, a9], Or.inr ⟨by rw [b1]; exact hu, m2, bn, by rw [b9, a7], ?_⟩⟩
        · rw [a1] at b2; exact b2
        · rw [b1]; exact a2
        · rw [a1] at b4; exact b4
        · rw [b1]; exact a3
        · rw [b1]; exact a4
        · cases brk with
          | true =>
            left
            refine ⟨rfl, b8.mp rfl, ?_⟩
            rw [b10, a10, b5, a5]; simp
          | false =>
            right
            refine ⟨rfl, ?_, ?_⟩
            · by_contra hc
              have := b8.mpr (by omega)
              cases this
            · rw [b10, a10, b5, a5]; simp
  | false =>
    simp only [Bool.false_eq_true, if_false] at h
    cases hpa : opponentAttacks (startRound s) with
    | error e => rw [hpa] at h; cases h
    | ok res =>
      obtain ⟨u, b⟩ := res
      rw [hpa] at h
      obtain ⟨a1, a2, a3, a4, a5, a6, a7, a8, m1, an, a9, a10⟩ :=
        opponentAttacks_effect hpa (le_of_lt hp)
      simp only [startRound] at a1 a2 a3 a4 a5 a6 a7 a9 a10
      cases b with
      | true =>
        simp only at h
        obtain ⟨rfl, rfl⟩ := Prod.mk.inj (Except.ok.inj h)
        simp only [RoundEffect, firstPokemon, secondPokemon, firstMoves, secondMoves,
          Bool.false_eq_true, if_false]
        refine ⟨a5, ?_, a2, ?_, ?_, a3, a4, a6, m1, an, a9,
          Or.inl ⟨trivial, a8.mp rfl, ?_, a7, ?_⟩⟩
        · rw [a1]; exact SameButHP.refl _
        · rw [a1]; omega
        · rw [a1]
        · rw [a1]; exact ho
        · rw [a10, a5]; simp
      | false =>
        simp only at h
        have hu : 0 < u.playerPokemon.HP := by
          by_contra hc
          have := a8.mpr (by omega)
          cases this
        obtain ⟨b1, b2, b3, b4, b5, b6, b7, b8, m2, bn, b9, b10⟩ :=
          playerAttacks_effect h (by rw [a1]; omega)
        simp only [RoundEffect, firstPokemon, secondPokemon, firstMoves, secondMoves,
          Bool.false_eq_true, if_false]
        refine ⟨by rw [b5, a5], ?_, ?_, b3, ?_, ?_, ?_, by rw [b6, a6], m1, an,
          by rw [b7, a9], Or.inr ⟨by rw [b1]; exact hu, m2, bn, by rw [b9, a7], ?_⟩⟩
        · rw [a1] at b2; exact b2
        · rw [b1]; exact a2
        · rw [a1] at b4; exact b4
        · rw [b1]; exact a3
        · rw [b1]; exact a4
        · cases brk with
          | true =>
            left
            refine ⟨rfl, b8.mp rfl, ?_⟩
            rw [b10, a10, b5, a5]; simp
          | false =>
            right
            refine ⟨rfl, ?_, ?_⟩
            · by_contra hc
              have := b8.mpr (by omega)
              cases this
            · rw [b10, a10, b5, a5]; simp

theorem playerAttacks_total (s : BattleState) (ha : s.playerPokemon.Moves ≠ [])
    (hd : s.opponentPokemon.Defense ≠ 0) : ∃ t brk, playerAttacks s = .ok (t, brk) := by
  obtain ⟨out, hout⟩ := executeAttack_total s.rand ha hd
  unfold playerAttacks
  rw [hout]
  simp only
  split
  · exact ⟨_, _, rfl⟩
  · exact ⟨_, _, rfl⟩

theorem opponentAttacks_total (s : BattleState) (ha : s.opponentPokemon.Moves ≠ [])
    (hd : s.playerPokemon.Defense ≠ 0) : ∃ t brk, opponentAttacks s = .ok (t, brk) := by
  obtain ⟨out, hout⟩ := executeAttack_total s.rand ha hd
  unfold opponentAttacks
  rw [hout]
  simp only
  split
  · exact ⟨_, _, rfl⟩
  · exact ⟨_, _, rfl⟩

/-- The loop body returns when both sides are battleworthy. -/
theorem battleRound_total (playerFirst : Bool) (s : BattleState)
    (hp : Battleworthy s.playerPokemon) (ho : Battleworthy s.opponentPokemon)
    (hhp : 0 < s.playerPokemon.HP) (hho : 0 < s.opponentPokemon.HP) :
    ∃ t brk, battleRound playerFirst s = .ok (t, brk) := by
  rw [battleRound_eq]
  cases playerFirst with
  | true =>
    simp only [if_true]
    obtain ⟨u, b, hu⟩ := playerAttacks_total (startRound s) hp.1 ho.2
    rw [hu]
    cases b with
    | true => exact ⟨_, _, rfl⟩
    | false =>
      simp only
      obtain ⟨a1, a2, -⟩ := playerAttacks_effect hu (le_of_lt hho)
      have hw := a2.battleworthy ho
      exact opponentAttacks_total u hw.1 (by rw [a1]; exact hp.2)
  | false =>
    simp only [Bool.false_eq_true, if_false]
    obtain ⟨u, b, hu⟩ := opponentAttacks_total (startRound s) ho.1 hp.2
    rw [hu]
    cases b with
    | true => exact ⟨_, _, rfl⟩
    | false =>
      simp only
      obtain ⟨a1, a2, -⟩ := opponentAttacks_effect hu (le_of_lt hhp)
      have hw := a2.battleworthy hp
      exact playerAttacks_total u hw.1 (by rw [a1]; exact ho.2)

/-! ## The round loop -/

theorem battleLoop_eq (maxRounds : Int) (playerFirst : Bool) (fuel : Nat) (s : BattleState) :
    battleLoop maxRounds playerFirst fuel s =
      if loopCond maxRounds s then
        match fuel with
        | 0 => .error .outOfFuel
        | fuel + 1 =>
          match battleRound playerFirst s with
          | .error e => .error e
          | .ok (s, true) => .ok s
          | .ok (s, false) => battleLoop maxRounds playerFirst fuel s
      else .ok s := by
  cases fuel <;> (conv_lhs => unfold battleLoop)

/-- The proof rule of the round loop: a property `P` that the loop body
preserves as long as the loop goes on, and that yields `Q` whenever the loop is
left (by its condition or by `break`), gives `Q` for the final state. -/
theorem battleLoop_rule (maxRounds : Int) (playerFirst : Bool) (P Q : BattleState → Prop)
    (hexit : ∀ s, P s → ¬ loopCond maxRounds s → Q s)
    (hstep : ∀ s t brk, P s → loopCond maxRounds s → RoundEffect playerFirst s t brk →
      (brk = true → Q t) ∧ (brk = false → P t)) :
    ∀ (fuel : Nat) (s t : BattleState), P s →
      battleLoop maxRounds playerFirst fuel s = .ok t → Q t := by
  intro fuel
  induction fuel with
  | zero =>
    intro s t hP h
    rw [battleLoop_eq] at h
    by_cases hc : loopCond maxRounds s
    · rw [if_pos hc] at h
      cases h
    · rw [if_neg hc] at h
      obtain rfl := Except.ok.inj h
      exact hexit _ hP hc
  | succ fuel ih =>
    intro s t hP h
    rw [battleLoop_eq] at h
    by_cases hc : loopCond maxRounds s
    · rw [if_pos hc] at h
      simp only at h
      cases hr : battleRound playerFirst s with
      | error e => rw [hr] at h; cases h
      | ok res =>
        obtain ⟨u, b⟩ := res
        rw [hr] at h
        have heff := battleRound_effect hr hc.2.1 hc.2.2
        cases b with
        | true =>
          simp only at h
          obtain rfl := Except.ok.inj h
          exact (hstep _ _ _ hP hc heff).1 rfl
        | false =>
          simp only at h
          exact ih u t ((hstep _ _ _ hP hc heff).2 rfl) h
    · rw [if_neg hc] at h
      obtain rfl := Except.ok.inj h
      exact hexit _ hP hc

/-- The round loop returns when both sides are battleworthy, the round limit is
an `int`, and the fuel covers the rounds that are left. -/
theorem battleLoop_total (maxRounds : Int) (playerFirst : Bool)
    (hmax : maxRounds ≤ 9223372036854775807) :
    ∀ (fuel : Nat) (s : BattleState), Battleworthy s.playerPokemon →
      Battleworthy s.opponentPokemon → 0 ≤ s.round → (maxRounds - s.round).toNat ≤ fuel →
      ∃ t, battleLoop maxRounds playerFirst fuel s = .ok t := by
  intro fuel
  induction fuel with
  | zero =>
    intro s _ _ hr hf
    rw [battleLoop_eq]
    by_cases hc : loopCond maxRounds s
    · have := hc.1
      omega
    · rw [if_neg hc]
      exact ⟨_, rfl⟩
  | succ fuel ih =>
    intro s hp ho hr hf
    rw [battleLoop_eq]
    by_cases hc : loopCond maxRounds s
    · rw [if_pos hc]
      simp only
      obtain ⟨u, b, hu⟩ := battleRound_total playerFirst s hp ho hc.2.1 hc.2.2
      have heff := battleRound_effect hu hc.2.1 hc.2.2
      rw [hu]
      cases b with
      | true => exact ⟨_, rfl⟩
      | false =>
        simp only
        obtain ⟨e1, e2, e3, -⟩ := heff
        have hlt := hc.1
        have hround : u.round = s.round + 1 := by
          rw [e1]
          unfold add64
          exact wrap64_of_inInt64 (by unfold InInt64; omega)
        have hp2 : Battleworthy u.playerPokemon := by
          cases playerFirst with
          | true => exact e2.battleworthy hp
          | false => exact e3.battleworthy hp
        have ho2 : Battleworthy u.opponentPokemon := by
          cases playerFirst with
          | true => exact e3.battleworthy ho
          | false => exact e2.battleworthy ho
        exact ih u hp2 ho2 (by omega) (by omega)
    · rw [if_neg hc]
      exact ⟨_, rfl⟩

/-! ## Facts about the state in which the round loop is left -/

theorem runBattle_total (player opponent : Pokemon) (maxRounds : Int) (rand : Rand)
    (hp : Battleworthy player) (ho : Battleworthy opponent)
    (hmax : maxRounds ≤ 9223372036854775807) :
    ∃ s, runBattle player opponent maxRounds rand = .ok s := by
  unfold runBattle
  apply battleLoop_total maxRounds _ hmax
  · exact hp
  · exact ho
  · exact le_refl _
  · simp [initialState]

/-- The function `simulateBattle` returns for battleworthy combatants. -/
theorem simulateBattle_total (player opponent : Pokemon) (maxRounds : Int) (rand : Rand)
    (hp : Battleworthy player) (ho : Battleworthy opponent)
    (hmax : maxRounds ≤ 9223372036854775807) :
    ∃ res, simulateBattle player opponent maxRounds rand = .ok res := by
  obtain ⟨s, hs⟩ := runBattle_total player opponent maxRounds rand hp ho hmax
  unfold simulateBattle
  rw [hs]
  exact ⟨_, rfl⟩

theorem simulateBattle_ok_inv {player opponent : Pokemon} {maxRounds : Int} {rand : Rand}
    {res : BattleResult} (h : simulateBattle player opponent maxRounds rand = .ok res) :
    ∃ s, runBattle player opponent maxRounds rand = .ok s ∧ res = conclude s := by
  unfold simulateBattle at h
  cases hs : runBattle player opponent maxRounds rand with
  | error e => rw [hs] at h; cases h
  | ok s =>
    rw [hs] at h
    exact ⟨s, rfl, (Except.ok.inj h).symm⟩

theorem conclude_fields (s : BattleState) :
    (conclude s).Rounds = s.round ∧ (conclude s).PlayerHP = s.playerPokemon.HP ∧
      (conclude s).OpponentHP = s.opponentPokemon.HP ∧
      (conclude s).PlayerMoves = s.PlayerMoves ∧
      (conclude s).OpponentMoves = s.OpponentMoves := by
  unfold conclude
  split
  · exact ⟨rfl, rfl, rfl, rfl, rfl⟩
  · split
    · exact ⟨rfl, rfl, rfl, rfl, rfl⟩
    · exact ⟨rfl, rfl, rfl, rfl, rfl⟩

/-- Health never rises during the loop and never falls below 0, and nothing but
the health of the two working copies changes. -/
theorem runBattle_health {player opponent : Pokemon} {maxRounds : Int} {rand : Rand}
    {s : BattleState} (h : runBattle player opponent maxRounds rand = .ok s) :
    SameButHP player s.playerPokemon ∧ SameButHP opponent s.opponentPokemon ∧
      s.playerPokemon.HP ≤ player.HP ∧ s.opponentPokemon.HP ≤ opponent.HP ∧
      (0 ≤ player.HP → 0 ≤ s.playerPokemon.HP) ∧
      (0 ≤ opponent.HP → 0 ≤ s.opponentPokemon.HP) := by
  unfold runBattle at h
  refine battleLoop_rule maxRounds _
    (fun s => SameButHP player s.playerPokemon ∧ SameButHP opponent s.opponentPokemon ∧
      s.playerPokemon.HP ≤ player.HP ∧ s.opponentPokemon.HP ≤ opponent.HP ∧
      (0 ≤ player.HP → 0 ≤ s.playerPokemon.HP) ∧
      (0 ≤ opponent.HP → 0 ≤ s.opponentPokemon.HP))
    _ (fun s hP _ => hP) ?_ _ _ _ ?_ h
  · intro s t brk hP _ heff
    obtain ⟨p1, p2, p3, p4, -, -⟩ := hP
    obtain ⟨-, e2, e3, e4, e5, e6, e7, -⟩ := heff
    have key : SameButHP player t.playerPokemon ∧ SameButHP opponent t.opponentPokemon ∧
        t.playerPokemon.HP ≤ player.HP ∧ t.opponentPokemon.HP ≤ opponent.HP ∧
        (0 ≤ player.HP → 0 ≤ t.playerPokemon.HP) ∧
        (0 ≤ opponent.HP → 0 ≤ t.opponentPokemon.HP) := by
      cases hpf : playerActsFirst player opponent with
      | true =>
        rw [hpf] at e2 e3 e4 e5 e6 e7
        simp only [firstPokemon, secondPokemon, if_true] at e2 e3 e4 e5 e6 e7
        exact ⟨p1.trans e2, p2.trans e3, by omega, by omega, fun _ => e4, fun _ => e6⟩
      | false =>
        rw [hpf] at e2 e3 e4 e5 e6 e7
        simp only [firstPokemon, secondPokemon, Bool.false_eq_true, if_false]
          at e2 e3 e4 e5 e6 e7
        exact ⟨p1.trans e3, p2.trans e2, by omega, by omega, fun _ => e6, fun _ => e4⟩
    exact ⟨fun _ => key, fun _ => key⟩
  · simp only [initialState]
    exact ⟨SameButHP.refl _, SameButHP.refl _, le_refl _, le_refl _, fun h => h, fun h => h⟩

/-- The round counter stays between 0 and a non-negative round limit. -/
theorem runBattle_round {player opponent : Pokemon} {maxRounds : Int} {rand : Rand}
    {s : BattleState} (h : runBattle player opponent maxRounds rand = .ok s)
    (hnonneg : 0 ≤ maxRounds) (hmax : maxRounds ≤ 9223372036854775807) :
    0 ≤ s.round ∧ s.round ≤ maxRounds := by
  unfold runBattle at h
  refine battleLoop_rule maxRounds _ (fun s => 0 ≤ s.round ∧ s.round ≤ maxRounds)
    _ (fun s hP _ => hP) ?_ _ _ _ ?_ h
  · intro s t brk hP hc heff
    have hlt := hc.1
    have hround : t.round = s.round + 1 := by
      rw [heff.1]
      unfold add64
      exact wrap64_of_inInt64 (by unfold InInt64; omega)
    have key : 0 ≤ t.round ∧ t.round ≤ maxRounds := by omega
    exact ⟨fun _ => key, fun _ => key⟩
  · simp only [initialState]
    omega

/-! ## The claims about `simulateBattle`: health, rounds, winner -/

/-- Claim C2: for combatants with a non-empty move list, a defense of at least 1
and a starting health between 0 and the maximum health, for every round limit
(a Go `int`) and every stream of random draws, `simulateBattle` returns an
outcome whose `PlayerHP` is between 0 and the player's `MaxHP` and whose
`OpponentHP` is between 0 and the opponent's `MaxHP`. -/
theorem simulateBattle_health_in_bounds (player opponent : Pokemon) (maxRounds : Int)
    (rand : Rand) (hpm : player.Moves ≠ []) (hpd : 1 ≤ player.Defense)
    (hom : opponent.Moves ≠ []) (hod : 1 ≤ opponent.Defense)
    (hp0 : 0 ≤ player.HP) (hp1 : player.HP ≤ player.MaxHP)
    (ho0 : 0 ≤ opponent.HP) (ho1 : opponent.HP ≤ opponent.MaxHP)
    (hmax : InInt64 maxRounds) :
    ∃ res, simulateBattle player opponent maxRounds rand = .ok res ∧
      0 ≤ res.PlayerHP ∧ res.PlayerHP ≤ player.MaxHP ∧
      0 ≤ res.OpponentHP ∧ res.OpponentHP ≤ opponent.MaxHP := by
  obtain ⟨res, hres⟩ := simulateBattle_total player opponent maxRounds rand
    ⟨hpm, by omega⟩ ⟨hom, by omega⟩ hmax.2
  obtain ⟨s, hs, rfl⟩ := simulateBattle_ok_inv hres
  obtain ⟨-, -, h3, h4, h5, h6⟩ := runBattle_health hs
  obtain ⟨-, c2, c3, -⟩ := conclude_fields s
  refine ⟨_, hres, ?_, ?_, ?_, ?_⟩
  · rw [c2]; exact h5 hp0
  · rw [c2]; omega
  · rw [c3]; exact h6 ho0
  · rw [c3]; omega

theorem simulateBattle_health_in_bounds_witness :
    ∃ res, simulateBattle bulbasaur charmander 5 (constRand 0) = .ok res ∧
      0 ≤ res.PlayerHP ∧ res.PlayerHP ≤ bulbasaur.MaxHP ∧
      0 ≤ res.OpponentHP ∧ res.OpponentHP ≤ charmander.MaxHP :=
  simulateBattle_health_in_bounds bulbasaur charmander 5 (constRand 0) (by decide) (by decide)
    (by decide) (by decide) (by decide) (by decide) (by decide) (by decide) (by decide)

/-- Claim C3: for combatants with a non-empty move list and a defense of at
least 1, for every positive round limit (a Go `int`) and every stream of random
draws, `simulateBattle` returns (the fuel of the loop model is never exhausted)
and the field `Rounds` of its outcome is between 0 and `maxRounds`. -/
theorem simulateBattle_terminates_within_limit (player opponent : Pokemon) (maxRounds : Int)
    (rand : Rand) (hpm : player.Moves ≠ []) (hpd : 1 ≤ player.Defense)
    (hom : opponent.Moves ≠ []) (hod : 1 ≤ opponent.Defense)
    (hpos : 0 < maxRounds) (hmax : maxRounds ≤ 9223372036854775807) :
    ∃ res, simulateBattle player opponent maxRounds rand = .ok res ∧
      0 ≤ res.Rounds ∧ res.Rounds ≤ maxRounds := by
  obtain ⟨res, hres⟩ := simulateBattle_total player opponent maxRounds rand
    ⟨hpm, by omega⟩ ⟨hom, by omega⟩ hmax
  obtain ⟨s, hs, rfl⟩ := simulateBattle_ok_inv hres
  obtain ⟨h1, h2⟩ := runBattle_round hs (le_of_lt hpos) hmax
  obtain ⟨c1, -⟩ := conclude_fields s
  exact ⟨_, hres, by rw [c1]; exact h1, by rw [c1]; exact h2⟩

theorem simulateBattle_terminates_within_limit_witness :
    ∃ res, simulateBattle squirtle charmander 3 (constRand 2) = .ok res ∧
      0 ≤ res.Rounds ∧ res.Rounds ≤ 3 :=
  simulateBattle_terminates_within_limit squirtle charmander 3 (constRand 2) (by decide)
    (by decide) (by decide) (by decide) (by decide) (by decide)

/-- Claim C4, as the code has it: a battle completes whenever both combatants
are battleworthy and the round limit is a Go `int`, and in every completed
battle the outcome reports the health of the two working copies when the round
loop is left (`PlayerHP`, `OpponentHP`, never above the starting health), and
`Winner` is "opponent" if `PlayerHP <= 0`, otherwise "player" if
`OpponentHP <= 0`, otherwise "draw", the last line of the log naming the same
winner or the draw.  So `Winner` is "draw" if and only if `PlayerHP` and
`OpponentHP` are both greater than 0; and for combatants whose starting health
is not negative no final health is negative and the rule reads: "opponent" if
`PlayerHP` is 0, otherwise "player" if `OpponentHP` is 0, otherwise "draw". -/
theorem simulateBattle_winner (player opponent : Pokemon) (maxRounds : Int) (rand : Rand) :
    (Battleworthy player → Battleworthy opponent → maxRounds ≤ 9223372036854775807 →
        ∃ res, simulateBattle player opponent maxRounds rand = .ok res) ∧
      ∀ res, simulateBattle player opponent maxRounds rand = .ok res →
        (∃ s, runBattle player opponent maxRounds rand = .ok s ∧
            res.PlayerHP = s.playerPokemon.HP ∧ res.OpponentHP = s.opponentPokemon.HP ∧
            res.Rounds = s.round) ∧
          res.PlayerHP ≤ player.HP ∧ res.OpponentHP ≤ opponent.HP ∧
          res.Winner =
            (if res.PlayerHP ≤ 0 then "opponent"
             else if res.OpponentHP ≤ 0 then "player" else "draw") ∧
          res.BattleLog.getLast? =
            some (if res.PlayerHP ≤ 0 then winsMsg opponent
              else if res.OpponentHP ≤ 0 then winsMsg player else drawMsg) ∧
          (res.Winner = "draw" ↔ 0 < res.PlayerHP ∧ 0 < res.OpponentHP) ∧
          (0 ≤ player.HP → 0 ≤ opponent.HP →
            0 ≤ res.PlayerHP ∧ 0 ≤ res.OpponentHP ∧
            res.Winner =
              (if res.PlayerHP = 0 then "opponent"
               else if res.OpponentHP = 0 then "player" else "draw")) := by
  refine ⟨simulateBattle_total player opponent maxRounds rand, ?_⟩
  intro res h
  obtain ⟨s, hs, rfl⟩ := simulateBattle_ok_inv h
  obtain ⟨n1, n2, h3, h4, h5, h6⟩ := runBattle_health hs
  obtain ⟨c1, c2, c3, -, -⟩ := conclude_fields s
  have hname1 : winsMsg s.playerPokemon = winsMsg player := by
    unfold SameButHP at n1
    unfold winsMsg
    rw [n1]
  have hname2 : winsMsg s.opponentPokemon = winsMsg opponent := by
    unfold SameButHP at n2
    unfold winsMsg
    rw [n2]
  have hw : (conclude s).Winner =
      (if s.playerPokemon.HP ≤ 0 then "opponent"
       else if s.opponentPokemon.HP ≤ 0 then "player" else "draw") := by
    unfold conclude
    split
    · rfl
    · split
      · rfl
      · rfl
  have hl : (conclude s).BattleLog.getLast? =
      some (if s.playerPokemon.HP ≤ 0 then winsMsg opponent
        else if s.opponentPokemon.HP ≤ 0 then winsMsg player else drawMsg) := by
    unfold conclude
    split
    · rw [← hname2]; exact List.getLast?_concat _
    · split
      · rw [← hname1]; exact List.getLast?_concat _
      · exact List.getLast?_concat _
  rw [c2, c3, hw, hl]
  refine ⟨⟨s, hs, rfl, rfl, c1⟩, h3, h4, rfl, rfl, ?_, ?_⟩
  · by_cases c1 : s.playerPokemon.HP ≤ 0
    · rw [if_pos c1]
      constructor
      · intro hc; exact absurd hc (by decide)
      · intro hc; omega
    · rw [if_neg c1]
      by_cases c4 : s.opponentPokemon.HP ≤ 0
      · rw [if_pos c4]
        constructor
        · intro hc; exact absurd hc (by decide)
        · intro hc; omega
      · rw [if_neg c4]
        exact ⟨fun _ => ⟨by omega, by omega⟩, fun _ => rfl⟩
  · intro hp0 ho0
    have hp := h5 hp0
    have ho := h6 ho0
    refine ⟨hp, ho, ?_⟩
    by_cases c1 : s.playerPokemon.HP ≤ 0
    · rw [if_pos c1, if_pos (show s.playerPokemon.HP = 0 by omega)]
    · rw [if_neg c1, if_neg (show ¬ s.playerPokemon.HP = 0 by omega)]
      by_cases c4 : s.opponentPokemon.HP ≤ 0
      · rw [if_pos c4, if_pos (show s.opponentPokemon.HP = 0 by omega)]
      · rw [if_neg c4, if_neg (show ¬ s.opponentPokemon.HP = 0 by omega)]

theorem simulateBattle_winner_witness :
    (∃ res, simulateBattle charmander weakSquirtle 5 (constRand 0) = .ok res) ∧
      (∃ s, runBattle charmander weakSquirtle 5 (constRand 0) = .ok s ∧
        faintInRoundOne.PlayerHP = s.playerPokemon.HP ∧
        faintInRoundOne.OpponentHP = s.opponentPokemon.HP ∧
        faintInRoundOne.Rounds = s.round) ∧
      faintInRoundOne.Winner =
        (if faintInRoundOne.PlayerHP ≤ 0 then "opponent"
         else if faintInRoundOne.OpponentHP ≤ 0 then "player" else "draw") ∧
      (0 ≤ faintInRoundOne.PlayerHP ∧ 0 ≤ faintInRoundOne.OpponentHP ∧
        faintInRoundOne.Winner =
          (if faintInRoundOne.PlayerHP = 0 then "opponent"
           else if faintInRoundOne.OpponentHP = 0 then "player" else "draw")) :=
  ⟨(simulateBattle_winner charmander weakSquirtle 5 (constRand 0)).1
      (by decide) (by decide) (by decide),
    ((simulateBattle_winner charmander weakSquirtle 5 (constRand 0)).2 faintInRoundOne
      (by rfl)).1,
    ((simulateBattle_winner charmander weakSquirtle 5 (constRand 0)).2 faintInRoundOne
      (by rfl)).2.2.2.1,
    ((simulateBattle_winner charmander weakSquirtle 5 (constRand 0)).2 faintInRoundOne
      (by rfl)).2.2.2.2.2.2 (by decide) (by decide)⟩

/-- The winners of three battles, evaluated: a draw after two rounds of Growl, a
win of the player by a faint in round 1, and a draw after three rounds. -/
theorem winner_examples :
    (simulateBattle bulbasaur charmander 2 (constRand 1)).toOption.map
        (fun res => (res.Winner, res.PlayerHP, res.OpponentHP)) = some ("draw", 45, 39) ∧
      (simulateBattle charmander weakSquirtle 5 (constRand 0)).toOption.map
        (fun res => (res.Winner, res.PlayerHP, res.OpponentHP)) = some ("player", 39, 0) ∧
      (simulateBattle weakSquirtle charmander 5 (constRand 0)).toOption.map
        (fun res => (res.Winner, res.PlayerHP, res.OpponentHP)) = some ("opponent", 0, 39) := by
  decide

/-- Claim C4 fails as stated: Bulbasaur entered with a health of `-5` against
Charmander (39) plays no round; the outcome has `PlayerHP = -5` and
`OpponentHP = 39`, neither of them 0, so the rule of the claim names "draw", but
the code tests `playerPokemon.HP <= 0` and reports "opponent". -/
theorem simulateBattle_winner_counterexample :
    (simulateBattle woundedBulbasaur charmander 5 (constRand 0)).toOption.map
        (fun res => (res.Winner, res.Rounds, res.PlayerHP, res.OpponentHP)) =
        some ("opponent", 0, -5, 39) ∧
      (if (-5 : Int) = 0 then "opponent" else if (39 : Int) = 0 then "player" else "draw") =
        "draw" ∧
      "opponent" ≠ "draw" := by
  decide

/-! ## The move lists and the log -/

/-- The shape of the two move lists and of the end of the log when the loop is
left, for a battle that both sides start with positive health. -/
theorem runBattle_moves {player opponent : Pokemon} {maxRounds : Int} {rand : Rand}
    {s : BattleState} (h : runBattle player opponent maxRounds rand = .ok s)
    (hp : 0 < player.HP) (ho : 0 < opponent.HP) (hmax : maxRounds ≤ 9223372036854775807) :
    0 ≤ s.round ∧
      ((firstMoves (playerActsFirst player opponent) s).length : Int) = s.round ∧
      ((secondMoves (playerActsFirst player opponent) s).length : Int) =
        (if (secondPokemon (playerActsFirst player opponent) s).HP ≤ 0 then s.round - 1
         else s.round) ∧
      ((secondPokemon (playerActsFirst player opponent) s).HP ≤ 0 →
        0 < (firstPokemon (playerActsFirst player opponent) s).HP ∧
        ∃ pre m, (firstMoves (playerActsFirst player opponent) s).getLast? = some m ∧
          s.BattleLog =
            pre ++ [m, faintMsg (secondPokemon (playerActsFirst player opponent) s)]) ∧
      ((firstPokemon (playerActsFirst player opponent) s).HP ≤ 0 →
        0 < (secondPokemon (playerActsFirst player opponent) s).HP ∧
        ∃ pre m, (secondMoves (playerActsFirst player opponent) s).getLast? = some m ∧
          s.BattleLog =
            pre ++ [m, faintMsg (firstPokemon (playerActsFirst player opponent) s)]) := by
  unfold runBattle at h
  generalize playerActsFirst player opponent = pf at h ⊢
  refine battleLoop_rule maxRounds pf
    (fun s => 0 ≤ s.round ∧ ((firstMoves pf s).length : Int) = s.round ∧
      ((secondMoves pf s).length : Int) = s.round ∧
      0 < (firstPokemon pf s).HP ∧ 0 < (secondPokemon pf s).HP)
    (fun s => 0 ≤ s.round ∧ ((firstMoves pf s).length : Int) = s.round ∧
      ((secondMoves pf s).length : Int) =
        (if (secondPokemon pf s).HP ≤ 0 then s.round - 1 else s.round) ∧
      ((secondPokemon pf s).HP ≤ 0 → 0 < (firstPokemon pf s).HP ∧
        ∃ pre m, (firstMoves pf s).getLast? = some m ∧
          s.BattleLog = pre ++ [m, faintMsg (secondPokemon pf s)]) ∧
      ((firstPokemon pf s).HP ≤ 0 → 0 < (secondPokemon pf s).HP ∧
        ∃ pre m, (secondMoves pf s).getLast? = some m ∧
          s.BattleLog = pre ++ [m, faintMsg (firstPokemon pf s)]))
    ?_ ?_ _ _ _ ?_ h
  · intro s hP _
    obtain ⟨p1, p2, p3, p4, p5⟩ := hP
    refine ⟨p1, p2, ?_, ?_, ?_⟩
    · rw [if_neg (by omega)]; exact p3
    · intro hc; omega
    · intro hc; omega
  · intro s t brk hP hc heff
    obtain ⟨p1, p2, p3, p4, p5⟩ := hP
    obtain ⟨e1, -, -, e4, -, e6, -, -, m1, -, e9, e10⟩ := heff
    have hlt := hc.1
    have hround : t.round = s.round + 1 := by
      rw [e1]
      unfold add64
      exact wrap64_of_inInt64 (by unfold InInt64; omega)
    have hfirst : ((firstMoves pf t).length : Int) = t.round := by
      rw [e9, hround, List.length_append]
      simp only [List.length_singleton]
      omega
    rcases e10 with ⟨hb, f1, f2, f3, f4⟩ | ⟨f1, m2, -, f2, f3⟩
    · constructor
      · intro _
        refine ⟨by omega, hfirst, ?_, ?_, ?_⟩
        · rw [if_pos f1, f3, hround]; omega
        · intro _
          exact ⟨f2, s.BattleLog ++ [roundMsg t.round], m1, by rw [e9]; simp,
            by rw [f4]; simp⟩
        · intro hc2; omega
      · intro hb2; rw [hb] at hb2; cases hb2
    · have hsecond : ((secondMoves pf t).length : Int) = t.round := by
        rw [f2, hround, List.length_append]
        simp only [List.length_singleton]
        omega
      rcases f3 with ⟨hb, g1, g2⟩ | ⟨hb, g1, g2⟩
      · constructor
        · intro _
          refine ⟨by omega, hfirst, ?_, ?_, ?_⟩
          · rw [if_neg (by omega)]; exact hsecond
          · intro hc2; omega
          · intro _
            exact ⟨f1, s.BattleLog ++ [roundMsg t.round, m1], m2, by rw [f2]; simp,
              by rw [g2]; simp⟩
        · intro hb2; rw [hb] at hb2; cases hb2
      · constructor
        · intro hb2; rw [hb] at hb2; cases hb2
        · intro _
          exact ⟨by omega, hfirst, hsecond, g1, f1⟩
  · cases pf <;>
      simp only [initialState, firstMoves, secondMoves, firstPokemon, secondPokemon,
        Bool.false_eq_true, if_true, if_false, List.length_nil] <;>
      exact ⟨le_refl _, rfl, rfl, by assumption, by assumption⟩

/-- Every round of the battle has its header in the log, directly followed by
the attack of the side that acts first. -/
theorem runBattle_headers {player opponent : Pokemon} {maxRounds : Int} {rand : Rand}
    {s : BattleState} (h : runBattle player opponent maxRounds rand = .ok s)
    (hmax : maxRounds ≤ 9223372036854775807) :
    0 ≤ s.round ∧
      ((firstMoves (playerActsFirst player opponent) s).length : Int) = s.round ∧
      ∀ k : Nat, k < (firstMoves (playerActsFirst player opponent) s).length →
        ∃ i m, s.BattleLog[i]? = some (roundMsg (k + 1)) ∧ s.BattleLog[i + 1]? = some m ∧
          (firstMoves (playerActsFirst player opponent) s)[k]? = some m := by
  unfold runBattle at h
  generalize playerActsFirst player opponent = pf at h ⊢
  refine battleLoop_rule maxRounds pf
    (fun s => 0 ≤ s.round ∧ ((firstMoves pf s).length : Int) = s.round ∧
      ∀ k : Nat, k < (firstMoves pf s).length →
        ∃ i m, s.BattleLog[i]? = some (roundMsg (k + 1)) ∧ s.BattleLog[i + 1]? = some m ∧
          (firstMoves pf s)[k]? = some m)
    _ (fun s hP _ => hP) ?_ _ _ _ ?_ h
  · intro s t brk hP hc heff
    obtain ⟨p1, p2, p3⟩ := hP
    obtain ⟨e1, -, -, -, -, -, -, -, m1, en, e9, e10⟩ := heff
    have hlt := hc.1
    have hround : t.round = s.round + 1 := by
      rw [e1]
      unfold add64
      exact wrap64_of_inInt64 (by unfold InInt64; omega)
    have hlog : ∃ rest, t.BattleLog = s.BattleLog ++ (roundMsg t.round :: m1 :: rest) := by
      rcases e10 with ⟨-, -, -, -, f4⟩ | ⟨-, m2, -, -, ⟨-, -, g2⟩ | ⟨-, -, g2⟩⟩
      · exact ⟨_, f4⟩
      · exact ⟨_, g2⟩
      · exact ⟨_, g2⟩
    obtain ⟨rest, hrest⟩ := hlog
    have key : 0 ≤ t.round ∧ ((firstMoves pf t).length : Int) = t.round ∧
        ∀ k : Nat, k < (firstMoves pf t).length →
          ∃ i m, t.BattleLog[i]? = some (roundMsg (k + 1)) ∧ t.BattleLog[i + 1]? = some m ∧
            (firstMoves pf t)[k]? = some m := by
      refine ⟨by omega, ?_, ?_⟩
      · rw [e9, hround, List.length_append]
        simp only [List.length_singleton]
        omega
      · intro k hk
        rw [e9, List.length_append] at hk
        simp only [List.length_singleton] at hk
        by_cases hk2 : k < (firstMoves pf s).length
        · obtain ⟨i, m, q1, q2, q3⟩ := p3 k hk2
          have hi : i + 1 < s.BattleLog.length := by
            by_contra hc2
            rw [List.getElem?_eq_none (by omega)] at q2
            cases q2
          refine ⟨i, m, ?_, ?_, ?_⟩
          · rw [hrest, List.getElem?_append_left (by omega)]; exact q1
          · rw [hrest, List.getElem?_append_left hi]; exact q2
          · rw [e9, List.getElem?_append_left hk2]; exact q3
        · have hk3 : k = (firstMoves pf s).length := by omega
          have hr : t.round = ((k + 1 : Nat) : Int) := by
            rw [hround, ← p2, hk3]; push_cast; rfl
          refine ⟨s.BattleLog.length, m1, ?_, ?_, ?_⟩
          · rw [hrest, List.getElem?_append_right (le_refl _)]
            simp [hr]
          · rw [hrest, List.getElem?_append_right (by omega)]
            simp
          · rw [e9, hk3, List.getElem?_append_right (le_refl _)]
            simp
    exact ⟨fun _ => key, fun _ => key⟩
  · refine ⟨le_refl _, ?_, ?_⟩
    · cases pf <;> simp [initialState, firstMoves]
    · intro k hk
      cases pf <;> simp [initialState, firstMoves] at hk

/-- What the loop body appends to the log: the header of the round, the attack
of the first side, and lines that are not headers. -/
theorem RoundEffect.log_shape {playerFirst : Bool} {s t : BattleState} {brk : Bool}
    (heff : RoundEffect playerFirst s t brk) :
    ∃ m1 rest, NotHeader m1 ∧ (∀ x ∈ rest, NotHeader x) ∧
      firstMoves playerFirst t = firstMoves playerFirst s ++ [m1] ∧
      t.BattleLog = s.BattleLog ++ (roundMsg t.round :: m1 :: rest) := by
  obtain ⟨-, -, -, -, -, -, -, -, m1, en, e9, e10⟩ := heff
  rcases e10 with ⟨-, -, -, -, f4⟩ | ⟨-, m2, fn, -, ⟨-, -, g2⟩ | ⟨-, -, g2⟩⟩
  · refine ⟨m1, _, en, ?_, e9, f4⟩
    intro x hx
    rw [List.mem_singleton] at hx
    rw [hx]
    exact faintMsg_notHeader _
  · refine ⟨m1, _, en, ?_, e9, g2⟩
    intro x hx
    rcases List.mem_cons.mp hx with h1 | h1
    · rw [h1]; exact fn
    · rw [List.mem_singleton] at h1
      rw [h1]
      exact faintMsg_notHeader _
  · refine ⟨m1, _, en, ?_, e9, g2⟩
    intro x hx
    rw [List.mem_singleton] at hx
    rw [hx]
    exact fn

/-- The headers of the log are exactly the headers of the rounds played, and
each is directly followed by the attack of the side that acts first. -/
theorem runBattle_header_positions {player opponent : Pokemon} {maxRounds : Int}
    {rand : Rand} {s : BattleState} (h : runBattle player opponent maxRounds rand = .ok s)
    (hmax : maxRounds ≤ 9223372036854775807) :
    0 ≤ s.round ∧
      ((firstMoves (playerActsFirst player opponent) s).length : Int) = s.round ∧
      ∀ (i : Nat) (k : Int), s.BattleLog[i]? = some (roundMsg k) →
        1 ≤ k ∧ k ≤ s.round ∧
          ∃ m, s.BattleLog[i + 1]? = some m ∧
            (firstMoves (playerActsFirst player opponent) s)[(k - 1).toNat]? = some m := by
  unfold runBattle at h
  generalize playerActsFirst player opponent = pf at h ⊢
  refine battleLoop_rule maxRounds pf
    (fun s => 0 ≤ s.round ∧ ((firstMoves pf s).length : Int) = s.round ∧
      ∀ (i : Nat) (k : Int), s.BattleLog[i]? = some (roundMsg k) →
        1 ≤ k ∧ k ≤ s.round ∧
          ∃ m, s.BattleLog[i + 1]? = some m ∧ (firstMoves pf s)[(k - 1).toNat]? = some m)
    _ (fun s hP _ => hP) ?_ _ _ _ ?_ h
  · intro s t brk hP hc heff
    obtain ⟨p1, p2, p3⟩ := hP
    have e1 := heff.1
    obtain ⟨m1, rest, hn1, hnrest, e9, hlog⟩ := heff.log_shape
    have hlt := hc.1
    have hround : t.round = s.round + 1 := by
      rw [e1]
      unfold add64
      exact wrap64_of_inInt64 (by unfold InInt64; omega)
    have key : 0 ≤ t.round ∧ ((firstMoves pf t).length : Int) = t.round ∧
        ∀ (i : Nat) (k : Int), t.BattleLog[i]? = some (roundMsg k) →
          1 ≤ k ∧ k ≤ t.round ∧
            ∃ m, t.BattleLog[i + 1]? = some m ∧
              (firstMoves pf t)[(k - 1).toNat]? = some m := by
      refine ⟨by omega, ?_, ?_⟩
      · rw [e9, hround, List.length_append]
        simp only [List.length_singleton]
        omega
      · intro i k hik
        rcases Nat.lt_or_ge i s.BattleLog.length with hi | hi
        · rw [hlog, List.getElem?_append_left hi] at hik
          obtain ⟨q1, q2, m, q3, q4⟩ := p3 i k hik
          have hi2 : i + 1 < s.BattleLog.length := by
            by_contra hc2
            rw [List.getElem?_eq_none (by omega)] at q3
            cases q3
          refine ⟨q1, by omega, m, ?_, ?_⟩
          · rw [hlog, List.getElem?_append_left hi2]; exact q3
          · rw [e9, List.getElem?_append_left (by omega)]; exact q4
        · rw [hlog, List.getElem?_append_right hi] at hik
          rcases Nat.eq_zero_or_pos (i - s.BattleLog.length) with hz | hz
          · rw [hz] at hik
            have hk : t.round = k := roundMsg_injective (Option.some.inj hik)
            refine ⟨by omega, by omega, m1, ?_, ?_⟩
            · rw [hlog, List.getElem?_append_right (by omega)]
              have : i + 1 - s.BattleLog.length = 1 := by omega
              rw [this]
              simp
            · have : (k - 1).toNat = (firstMoves pf s).length := by omega
              rw [e9, this, List.getElem?_append_right (le_refl _)]
              simp
          · obtain ⟨j, hj⟩ : ∃ j, i - s.BattleLog.length = j + 1 := ⟨_, (Nat.succ_pred_eq_of_pos hz).symm⟩
            rw [hj, List.getElem?_cons_succ] at hik
            have hmem : roundMsg k ∈ m1 :: rest := List.getElem?_mem hik
            rcases List.mem_cons.mp hmem with h1 | h1
            · exact absurd h1.symm (hn1 k)
            · exact absurd rfl (hnrest _ h1 k)
    exact ⟨fun _ => key, fun _ => key⟩
  · refine ⟨le_refl _, ?_, ?_⟩
    · cases pf <;> simp [initialState, firstMoves]
    · intro i k hik
      simp only [initialState] at hik
      have hmem := List.getElem?_mem hik
      rw [List.mem_singleton] at hmem
      exact absurd hmem.symm (startMsg_notHeader _ _ k)

/-! ## The claims about the move lists and the log -/

/-- Claim C5: a battle that both sides start with positive health, the round
limit being a Go `int` (in particular one of at least 1), completes whenever both
sides are battleworthy, and in every completed one the move list of the side
that acts first has exactly `Rounds` entries; the move list of the side that acts second has
`Rounds - 1` entries if that side ends with health 0 and `Rounds` entries
otherwise; and when a side ends with health 0, the log ends with the last attack
of the other side, the faint notice and the conclusion line, so that no attack
follows the fainting one. -/
theorem simulateBattle_stops_at_faint (player opponent : Pokemon) (maxRounds : Int)
    (rand : Rand) (hp : 0 < player.HP) (ho : 0 < opponent.HP)
    (hmax : maxRounds ≤ 9223372036854775807) :
    (Battleworthy player → Battleworthy opponent →
        ∃ res, simulateBattle player opponent maxRounds rand = .ok res) ∧
      ∀ res, simulateBattle player opponent maxRounds rand = .ok res →
        (((if player.Speed ≥ opponent.Speed then res.PlayerMoves
            else res.OpponentMoves).length : Int) = res.Rounds) ∧
          (((if player.Speed ≥ opponent.Speed then res.OpponentMoves
              else res.PlayerMoves).length : Int) =
            if (if player.Speed ≥ opponent.Speed then res.OpponentHP else res.PlayerHP) = 0
            then res.Rounds - 1 else res.Rounds) ∧
          (res.OpponentHP = 0 →
            ∃ pre m, res.PlayerMoves.getLast? = some m ∧
              res.BattleLog = pre ++ [m, faintMsg opponent, winsMsg player]) ∧
          (res.PlayerHP = 0 →
            ∃ pre m, res.OpponentMoves.getLast? = some m ∧
              res.BattleLog = pre ++ [m, faintMsg player, winsMsg opponent]) := by
  refine ⟨fun hwp hwo => simulateBattle_total player opponent maxRounds rand hwp hwo hmax, ?_⟩
  intro res h
  obtain ⟨s, hs, rfl⟩ := simulateBattle_ok_inv h
  obtain ⟨n1, n2, -, -, n5, n6⟩ := runBattle_health hs
  have hp0 := n5 (le_of_lt hp)
  have ho0 := n6 (le_of_lt ho)
  have hname1 : faintMsg s.playerPokemon = faintMsg player ∧
      winsMsg s.playerPokemon = winsMsg player := by
    unfold SameButHP at n1
    unfold faintMsg winsMsg
    rw [n1]
    exact ⟨rfl, rfl⟩
  have hname2 : faintMsg s.opponentPokemon = faintMsg opponent ∧
      winsMsg s.opponentPokemon = winsMsg opponent := by
    unfold SameButHP at n2
    unfold faintMsg winsMsg
    rw [n2]
    exact ⟨rfl, rfl⟩
  obtain ⟨-, m2, m3, m4, m5⟩ := runBattle_moves hs hp ho hmax
  obtain ⟨c1, c2, c3, c4, c5⟩ := conclude_fields s
  rw [c1, c2, c3, c4, c5]
  have hlog : (s.playerPokemon.HP ≤ 0 →
        (conclude s).BattleLog = s.BattleLog ++ [winsMsg s.opponentPokemon]) ∧
      (0 < s.playerPokemon.HP → s.opponentPokemon.HP ≤ 0 →
        (conclude s).BattleLog = s.BattleLog ++ [winsMsg s.playerPokemon]) := by
    unfold conclude
    constructor
    · intro hc; rw [if_pos hc]
    · intro hc1 hc2; rw [if_neg (by omega), if_pos hc2]
  cases hpf : playerActsFirst player opponent with
  | true =>
    have hsp : player.Speed ≥ opponent.Speed := by
      unfold playerActsFirst at hpf
      exact of_decide_eq_true hpf
    rw [hpf] at m2 m3 m4 m5
    simp only [firstMoves, secondMoves, firstPokemon, secondPokemon, if_true] at m2 m3 m4 m5
    rw [if_pos hsp, if_pos hsp, if_pos hsp]
    refine ⟨m2, ?_, ?_, ?_⟩
    · rw [m3]
      by_cases hz : s.opponentPokemon.HP = 0
      · rw [if_pos hz, if_pos (by omega)]
      · rw [if_neg hz, if_neg (by omega)]
    · intro hz
      obtain ⟨hpos, pre, m, q1, q2⟩ := m4 (by omega)
      refine ⟨pre, m, q1, ?_⟩
      rw [hlog.2 hpos (by omega), q2, hname2.1, hname1.2]
      simp
    · intro hz
      obtain ⟨-, pre, m, q1, q2⟩ := m5 (by omega)
      refine ⟨pre, m, q1, ?_⟩
      rw [hlog.1 (by omega), q2, hname1.1, hname2.2]
      simp
  | false =>
    have hsp : ¬ player.Speed ≥ opponent.Speed := by
      unfold playerActsFirst at hpf
      exact of_decide_eq_false hpf
    rw [hpf] at m2 m3 m4 m5
    simp only [firstMoves, secondMoves, firstPokemon, secondPokemon, Bool.false_eq_true,
      if_false] at m2 m3 m4 m5
    rw [if_neg hsp, if_neg hsp, if_neg hsp]
    refine ⟨m2, ?_, ?_, ?_⟩
    · rw [m3]
      by_cases hz : s.playerPokemon.HP = 0
      · rw [if_pos hz, if_pos (by omega)]
      · rw [if_neg hz, if_neg (by omega)]
    · intro hz
      obtain ⟨hpos, pre, m, q1, q2⟩ := m5 (by omega)
      refine ⟨pre, m, q1, ?_⟩
      rw [hlog.2 hpos (by omega), q2, hname2.1, hname1.2]
      simp
    · intro hz
      obtain ⟨-, pre, m, q1, q2⟩ := m4 (by omega)
      refine ⟨pre, m, q1, ?_⟩
      rw [hlog.1 (by omega), q2, hname1.1, hname2.2]
      simp

theorem simulateBattle_stops_at_faint_witness :
    (∃ res, simulateBattle charmander weakSquirtle 5 (constRand 0) = .ok res) ∧
      (((if charmander.Speed ≥ weakSquirtle.Speed then faintInRoundOne.PlayerMoves
        else faintInRoundOne.OpponentMoves).length : Int) = faintInRoundOne.Rounds) ∧
      (((if charmander.Speed ≥ weakSquirtle.Speed then faintInRoundOne.OpponentMoves
          else faintInRoundOne.PlayerMoves).length : Int) =
        if (if charmander.Speed ≥ weakSquirtle.Speed then faintInRoundOne.OpponentHP
            else faintInRoundOne.PlayerHP) = 0
        then faintInRoundOne.Rounds - 1 else faintInRoundOne.Rounds) ∧
      (faintInRoundOne.OpponentHP = 0 →
        ∃ pre m, faintInRoundOne.PlayerMoves.getLast? = some m ∧
          faintInRoundOne.BattleLog = pre ++ [m, faintMsg weakSquirtle, winsMsg charmander]) ∧
      (faintInRoundOne.PlayerHP = 0 →
        ∃ pre m, faintInRoundOne.OpponentMoves.getLast? = some m ∧
          faintInRoundOne.BattleLog =
            pre ++ [m, faintMsg charmander, winsMsg weakSquirtle]) :=
  ⟨(simulateBattle_stops_at_faint charmander weakSquirtle 5 (constRand 0) (by decide)
      (by decide) (by decide)).1 (by decide) (by decide),
    (simulateBattle_stops_at_faint charmander weakSquirtle 5 (constRand 0) (by decide)
      (by decide) (by decide)).2 faintInRoundOne (by rfl)⟩

/-- Claim C6: the side that attacks first is the same in every round, and it is
the player exactly when `player.Speed >= opponent.Speed`.  A battle whose round
limit is a Go `int` completes whenever both sides are battleworthy, and in every
completed one, with `first` the list
`PlayerMoves` in that case and `OpponentMoves` otherwise: `first` has `Rounds`
entries; every log line that is the header "Round k:" has `1 <= k <= Rounds` and
is directly followed by the `k`-th entry of `first`; and every round `k` from 1
to `Rounds` has such a header in the log. -/
theorem simulateBattle_first_attacker_fixed (player opponent : Pokemon) (maxRounds : Int)
    (rand : Rand) (hmax : maxRounds ≤ 9223372036854775807) :
    (Battleworthy player → Battleworthy opponent →
        ∃ res, simulateBattle player opponent maxRounds rand = .ok res) ∧
      ∀ res, simulateBattle player opponent maxRounds rand = .ok res →
        (((if player.Speed ≥ opponent.Speed then res.PlayerMoves
            else res.OpponentMoves).length : Int) = res.Rounds) ∧
          (∀ (i : Nat) (k : Int), res.BattleLog[i]? = some (roundMsg k) →
            1 ≤ k ∧ k ≤ res.Rounds ∧
              ∃ m, res.BattleLog[i + 1]? = some m ∧
                (if player.Speed ≥ opponent.Speed then res.PlayerMoves
                 else res.OpponentMoves)[(k - 1).toNat]? = some m) ∧
          (∀ k : Int, 1 ≤ k → k ≤ res.Rounds →
            ∃ i : Nat, res.BattleLog[i]? = some (roundMsg k)) := by
  refine ⟨fun hwp hwo => simulateBattle_total player opponent maxRounds rand hwp hwo hmax, ?_⟩
  intro res h
  obtain ⟨s, hs, rfl⟩ := simulateBattle_ok_inv h
  obtain ⟨-, p2, p3⟩ := runBattle_header_positions hs hmax
  obtain ⟨-, -, q3⟩ := runBattle_headers hs hmax
  obtain ⟨c1, -, -, c4, c5⟩ := conclude_fields s
  have hfirst : (if player.Speed ≥ opponent.Speed then (conclude s).PlayerMoves
      else (conclude s).OpponentMoves) = firstMoves (playerActsFirst player opponent) s := by
    rw [c4, c5]
    unfold firstMoves playerActsFirst
    by_cases hsp : player.Speed ≥ opponent.Speed
    · rw [if_pos hsp, if_pos (decide_eq_true hsp)]
    · rw [if_neg hsp, if_neg (by simpa using hsp)]
  have hlog : ∃ last, NotHeader last ∧ (conclude s).BattleLog = s.BattleLog ++ [last] := by
    unfold conclude
    split
    · exact ⟨_, winsMsg_notHeader _, rfl⟩
    · split
      · exact ⟨_, winsMsg_notHeader _, rfl⟩
      · exact ⟨_, drawMsg_notHeader, rfl⟩
  obtain ⟨last, hlast, hlog⟩ := hlog
  rw [hfirst, c1, hlog]
  refine ⟨p2, ?_, ?_⟩
  · intro i k hik
    rcases Nat.lt_or_ge i s.BattleLog.length with hi | hi
    · rw [List.getElem?_append_left hi] at hik
      obtain ⟨r1, r2, m, r3, r4⟩ := p3 i k hik
      have hi2 : i + 1 < s.BattleLog.length := by
        by_contra hc2
        rw [List.getElem?_eq_none (by omega)] at r3
        cases r3
      exact ⟨r1, r2, m, by rw [List.getElem?_append_left hi2]; exact r3, r4⟩
    · rw [List.getElem?_append_right hi] at hik
      have hmem := List.getElem?_mem hik
      rw [List.mem_singleton] at hmem
      exact absurd hmem.symm (hlast k)
  · intro k hk1 hk2
    obtain ⟨i, m, r1, -, -⟩ := q3 (k - 1).toNat (by omega)
    refine ⟨i, ?_⟩
    have hi : i < s.BattleLog.length := by
      by_contra hc2
      rw [List.getElem?_eq_none (by omega)] at r1
      cases r1
    rw [List.getElem?_append_left hi, r1]
    have : (((k - 1).toNat : Nat) : Int) + 1 = k := by omega
    rw [this]

theorem simulateBattle_first_attacker_fixed_witness :
    (∃ res, simulateBattle bulbasaur charmander 3 (constRand 0) = .ok res) ∧
      (((if bulbasaur.Speed ≥ charmander.Speed then threeRoundDraw.PlayerMoves
        else threeRoundDraw.OpponentMoves).length : Int) = threeRoundDraw.Rounds) ∧
      (∀ (i : Nat) (k : Int), threeRoundDraw.BattleLog[i]? = some (roundMsg k) →
        1 ≤ k ∧ k ≤ threeRoundDraw.Rounds ∧
          ∃ m, threeRoundDraw.BattleLog[i + 1]? = some m ∧
            (if bulbasaur.Speed ≥ charmander.Speed then threeRoundDraw.PlayerMoves
             else threeRoundDraw.OpponentMoves)[(k - 1).toNat]? = some m) ∧
      (∀ k : Int, 1 ≤ k → k ≤ threeRoundDraw.Rounds →
        ∃ i : Nat, threeRoundDraw.BattleLog[i]? = some (roundMsg k)) :=
  ⟨(simulateBattle_first_attacker_fixed bulbasaur charmander 3 (constRand 0)
      (by decide)).1 (by decide) (by decide),
    (simulateBattle_first_attacker_fixed bulbasaur charmander 3 (constRand 0)
      (by decide)).2 threeRoundDraw (by rfl)⟩

/-- The example of claim C6: Bulbasaur (speed 45) is the player and Charmander
(speed 65) the opponent; in each of the three rounds of `threeRoundDraw` the
line after the header is the attack of Charmander. -/
theorem charmander_acts_first_every_round :
    playerActsFirst bulbasaur charmander = false ∧
      threeRoundDraw.BattleLog[1]? = some (roundMsg 1) ∧
      threeRoundDraw.BattleLog[2]? = threeRoundDraw.OpponentMoves[0]? ∧
      threeRoundDraw.BattleLog[4]? = some (roundMsg 2) ∧
      threeRoundDraw.BattleLog[5]? = threeRoundDraw.OpponentMoves[1]? ∧
      threeRoundDraw.BattleLog[7]? = some (roundMsg 3) ∧
      threeRoundDraw.BattleLog[8]? = threeRoundDraw.OpponentMoves[2]? := by
  decide

/-! ## The claims about `executeAttack` -/

/-- Claim C7: when the accuracy roll is greater than or equal to the accuracy of
the selected move, `executeAttack` reports a miss and leaves the defender and
the attacker as they were, whatever the power of the move; when the attack hits
with a move of power 0, it reports the use of the move and leaves both as they
were.  The roll is in `[0, 100)`, so an accuracy of 100 or more never misses and
an accuracy of 0 or less always misses. -/
theorem executeAttack_miss_and_status_move_frame (attacker defender : Pokemon) (rand : Rand)
    (move : Move) (hmove : attacker.Moves[moveIndexOf attacker rand]? = some move) :
    (accuracyRoll rand ≥ move.Accuracy →
        ∃ out, executeAttack attacker defender rand = .ok out ∧
          out.msg = missMsg attacker move ∧ out.defender = defender ∧
          out.attacker = attacker) ∧
      (accuracyRoll rand < move.Accuracy → move.Power = 0 →
        ∃ out, executeAttack attacker defender rand = .ok out ∧
          out.msg = usedMsg attacker move ∧ out.defender = defender ∧
          out.attacker = attacker) ∧
      (0 ≤ accuracyRoll rand ∧ accuracyRoll rand < 100) ∧
      (100 ≤ move.Accuracy → accuracyRoll rand < move.Accuracy) ∧
      (move.Accuracy ≤ 0 → accuracyRoll rand ≥ move.Accuracy) := by
  have hroll := accuracyRoll_bounds rand
  refine ⟨?_, ?_, hroll, fun h => by omega, fun h => by omega⟩
  · intro hmiss
    rw [executeAttack_eq attacker defender rand move hmove, if_pos hmiss]
    exact ⟨_, rfl, rfl, rfl, rfl⟩
  · intro hhit hpow
    rw [executeAttack_eq attacker defender rand move hmove, if_neg (by omega),
      if_neg (by omega)]
    exact ⟨_, rfl, rfl, rfl, rfl⟩

theorem executeAttack_miss_and_status_move_frame_witness :
    (accuracyRoll (constRand 1) ≥ (100 : Int) →
        ∃ out, executeAttack bulbasaur squirtle (constRand 1) = .ok out ∧
          out.msg = missMsg bulbasaur
            { Name := "Growl", MoveType := "normal", Power := 0, Accuracy := 100 } ∧
          out.defender = squirtle ∧ out.attacker = bulbasaur) ∧
      (accuracyRoll (constRand 1) < (100 : Int) → (0 : Int) = 0 →
        ∃ out, executeAttack bulbasaur squirtle (constRand 1) = .ok out ∧
          out.msg = usedMsg bulbasaur
            { Name := "Growl", MoveType := "normal", Power := 0, Accuracy := 100 } ∧
          out.defender = squirtle ∧ out.attacker = bulbasaur) ∧
      (0 ≤ accuracyRoll (constRand 1) ∧ accuracyRoll (constRand 1) < 100) ∧
      ((100 : Int) ≤ 100 → accuracyRoll (constRand 1) < (100 : Int)) ∧
      ((100 : Int) ≤ 0 → accuracyRoll (constRand 1) ≥ (100 : Int)) :=
  executeAttack_miss_and_status_move_frame bulbasaur squirtle (constRand 1)
    { Name := "Growl", MoveType := "normal", Power := 0, Accuracy := 100 } (by rfl)

/-! ## The damage formula -/

theorem beats_eq_true_iff (a b : String) :
    beats a b = true ↔
      (a = "water" ∧ b = "fire") ∨ (a = "fire" ∧ b = "grass") ∨ (a = "grass" ∧ b = "water") := by
  unfold beats
  simp only [Bool.or_eq_true, Bool.and_eq_true, decide_eq_true_eq, or_assoc]

/-- The loop over the defender types computes the multiplier of the
specification. -/
theorem typeMultiplier_eq_spec (moveType : String) (types : List String) :
    typeMultiplier moveType types = specMultiplier moveType types := by
  induction types with
  | nil => rfl
  | cons t rest ih =>
    unfold typeMultiplier specMultiplier
    unfold specMultiplier at ih
    rw [List.find?_cons]
    by_cases h1 : (moveType = "water" ∧ t = "fire") ∨ (moveType = "fire" ∧ t = "grass") ∨
        (moveType = "grass" ∧ t = "water")
    · have hb : beats moveType t = true := (beats_eq_true_iff _ _).mpr h1
      rw [if_pos h1]
      simp [hb]
    · have hb : beats moveType t = false := by
        rw [← Bool.not_eq_true]
        exact fun hc => h1 ((beats_eq_true_iff _ _).mp hc)
      rw [if_neg h1]
      by_cases h2 : (moveType = "water" ∧ t = "grass") ∨ (moveType = "fire" ∧ t = "water") ∨
          (moveType = "grass" ∧ t = "fire")
      · have hb2 : beats t moveType = true := by
          rw [beats_eq_true_iff]
          rcases h2 with ⟨a, b⟩ | ⟨a, b⟩ | ⟨a, b⟩
          · exact Or.inr (Or.inr ⟨b, a⟩)
          · exact Or.inl ⟨b, a⟩
          · exact Or.inr (Or.inl ⟨b, a⟩)
        rw [if_pos h2]
        simp [hb, hb2]
      · have hb2 : beats t moveType = false := by
          rw [← Bool.not_eq_true]
          intro hc
          apply h2
          rcases (beats_eq_true_iff _ _).mp hc with ⟨a, b⟩ | ⟨a, b⟩ | ⟨a, b⟩
          · exact Or.inr (Or.inl ⟨b, a⟩)
          · exact Or.inr (Or.inr ⟨b, a⟩)
          · exact Or.inl ⟨b, a⟩
        rw [if_neg h2, ih]
        simp [hb, hb2]

theorem tdiv_inInt64 {v d : Int} (hv : InInt64 v) (hd : 1 ≤ d) : InInt64 (Int.tdiv v d) := by
  unfold InInt64 at *
  rcases Int.lt_or_le v 0 with h | h
  · rw [tdiv_of_neg h (by omega)]
    have h1 : (-v) / d ≤ -v := Int.ediv_le_self _ (by omega)
    have h2 : 0 ≤ (-v) / d := Int.ediv_nonneg (by omega) (by omega)
    omega
  · rw [tdiv_of_nonneg h (by omega)]
    have h1 : v / d ≤ v := Int.ediv_le_self _ h
    have h2 : 0 ≤ v / d := Int.ediv_nonneg h (by omega)
    omega

theorem tdiv_const_inInt64 {v : Int} (hv : InInt64 v) :
    InInt64 (Int.tdiv v 5 + 2) ∧ InInt64 (Int.tdiv v 50 + 2) ∧ InInt64 (Int.tdiv v 100) := by
  unfold InInt64 at *
  rcases Int.lt_or_le v 0 with h | h
  · rw [tdiv_of_neg h (by decide), tdiv_of_neg h (by decide), tdiv_of_neg h (by decide)]
    omega
  · rw [tdiv_of_nonneg h (by decide), tdiv_of_nonneg h (by decide),
      tdiv_of_nonneg h (by decide)]
    omega

/-- Without overflow the machine computation of `baseDamage` is the formula of
the specification. -/
theorem baseDamage_eq_spec {level power attack defense rf : Int} (hd : 1 ≤ defense)
    (hfit : ProductsFit level power attack defense rf) :
    baseDamage level power attack defense = specBase level power attack defense := by
  obtain ⟨h1, h2, h3, -⟩ := hfit
  have h4 := tdiv_inInt64 h3 hd
  unfold baseDamage specBase mul64 add64 quo64
  rw [wrap64_of_inInt64 h1, wrap64_of_inInt64 (tdiv_inInt64 h1 (by decide)),
    wrap64_of_inInt64 (tdiv_const_inInt64 h1).1, wrap64_of_inInt64 h2, wrap64_of_inInt64 h3,
    wrap64_of_inInt64 h4, wrap64_of_inInt64 (tdiv_inInt64 h4 (by decide)),
    wrap64_of_inInt64 (tdiv_const_inInt64 h4).2.1]

/-- Without overflow, and with the damage before the multiplier exact in
`float64`, the machine computation of the damage is the formula of the
specification. -/
theorem damageDealt_eq_spec {level power attack defense rf : Int} (m : Multiplier)
    (hd : 1 ≤ defense) (hfit : ProductsFit level power attack defense rf)
    (hex : ExactInFloat64 level power attack defense rf) :
    damageDealt level power attack defense rf m =
      specDamage level power attack defense rf m := by
  have hb := baseDamage_eq_spec hd hfit
  obtain ⟨-, -, -, h5⟩ := hfit
  unfold damageDealt specDamage mul64 quo64
  simp only
  rw [hb, wrap64_of_inInt64 h5, wrap64_of_inInt64 (tdiv_inInt64 h5 (by decide))]
  have hs : scaleDamage (Int.tdiv (specBase level power attack defense * rf) 100) m =
      specScale (Int.tdiv (specBase level power attack defense * rf) 100) m := by
    cases m <;> simp only [scaleDamage, specScale, float64OfInt_exact hex]
  rw [hs]
  split <;> omega

/-- Claim C1, as the code has it: for a defender with `Defense >= 1` and a
selected move with `Power > 0` that hits, provided that no product of the
formula leaves the 64-bit range of `int`, that the damage before the type
multiplier is at most `2^53` in absolute value (so that its conversion to
`float64` is exact) and that `HP - dmg` is an `int`, `executeAttack` deals
`dmg = max(1, trunc(m * (base * rf / 100)))` with
`base = ((2 * Level / 5 + 2) * Power * Attack / Defense) / 50 + 2`, every `/`
truncating, `rf` in `[85, 100]` and `m` decided by the first defender type that
forms a matchup with the move type; it sets the defender's `HP` to
`max(0, HP - dmg)` and changes nothing else. -/
theorem executeAttack_hit_deals_formula_damage (attacker defender : Pokemon) (rand : Rand)
    (move : Move) (hdef : 1 ≤ defender.Defense)
    (hmove : attacker.Moves[moveIndexOf attacker rand]? = some move)
    (hpow : 0 < move.Power) (hhit : accuracyRoll rand < move.Accuracy)
    (hfit : ProductsFit attacker.Level move.Power attacker.Attack defender.Defense
      (randomFactorOf rand))
    (hex : ExactInFloat64 attacker.Level move.Power attacker.Attack defender.Defense
      (randomFactorOf rand))
    (hhp : InInt64 (defender.HP -
      specDamage attacker.Level move.Power attacker.Attack defender.Defense
        (randomFactorOf rand) (specMultiplier move.MoveType defender.Types))) :
    (85 ≤ randomFactorOf rand ∧ randomFactorOf rand ≤ 100) ∧
      ∃ out, executeAttack attacker defender rand = .ok out ∧
        out.defender.HP =
          max 0 (defender.HP -
            specDamage attacker.Level move.Power attacker.Attack defender.Defense
              (randomFactorOf rand) (specMultiplier move.MoveType defender.Types)) ∧
        SameButHP defender out.defender ∧ out.attacker = attacker ∧
        out.msg = hitMsg attacker out.defender move
          (specMultiplier move.MoveType defender.Types)
          (specDamage attacker.Level move.Power attacker.Attack defender.Defense
            (randomFactorOf rand) (specMultiplier move.MoveType defender.Types)) := by
  refine ⟨randomFactorOf_bounds rand, ?_⟩
  have hdmg : hitDamage attacker defender move rand =
      specDamage attacker.Level move.Power attacker.Attack defender.Defense
        (randomFactorOf rand) (specMultiplier move.MoveType defender.Types) := by
    unfold hitDamage
    rw [typeMultiplier_eq_spec]
    exact damageDealt_eq_spec _ hdef hfit hex
  rw [executeAttack_eq attacker defender rand move hmove, if_neg (by omega), if_pos hpow,
    if_neg (by omega)]
  refine ⟨_, rfl, ?_, hitDefender_sameButHP _ _ _ _, rfl, ?_⟩
  · show applyDamage defender.HP (hitDamage attacker defender move rand) = _
    rw [hdmg]
    exact applyDamage_eq_max hhp
  · show hitMsg _ _ _ (typeMultiplier move.MoveType defender.Types)
      (hitDamage attacker defender move rand) = _
    rw [hdmg, typeMultiplier_eq_spec]

theorem executeAttack_hit_deals_formula_damage_witness :
    (85 ≤ randomFactorOf scenarioRand ∧ randomFactorOf scenarioRand ≤ 100) ∧
      ∃ out, executeAttack charmander bulbasaur scenarioRand = .ok out ∧
        out.defender.HP =
          max 0 (bulbasaur.HP -
            specDamage charmander.Level 40 charmander.Attack bulbasaur.Defense
              (randomFactorOf scenarioRand) (specMultiplier "normal" bulbasaur.Types)) ∧
        SameButHP bulbasaur out.defender ∧ out.attacker = charmander ∧
        out.msg = hitMsg charmander out.defender
          { Name := "Scratch", MoveType := "normal", Power := 40, Accuracy := 100 }
          (specMultiplier "normal" bulbasaur.Types)
          (specDamage charmander.Level 40 charmander.Attack bulbasaur.Defense
            (randomFactorOf scenarioRand) (specMultiplier "normal" bulbasaur.Types)) :=
  executeAttack_hit_deals_formula_damage charmander bulbasaur scenarioRand
    { Name := "Scratch", MoveType := "normal", Power := 40, Accuracy := 100 }
    (by decide) (by rfl) (by decide) (by decide) (by decide) (by decide) (by decide)

/-- The example of claim C1: level 5, power 40, attack 52, defense 49, random
factor 92 and a neutral matchup give 4 damage, by the formula and in the code. -/
theorem formula_example_damage :
    specDamage 5 40 52 49 92 .one = 4 ∧ damageDealt 5 40 52 49 92 .one = 4 ∧
      randomFactorOf scenarioRand = 92 ∧
      (executeAttack charmander bulbasaur scenarioRand).toOption.map
        (fun out => out.defender.HP) = some 41 := by
  decide

/-- Claim C1 fails as stated, in three ways.
(1) With level 5, attack 1, power 112589990684262388, defense 1, random factor
100 and a neutral matchup no product overflows and the formula gives
`2^53 + 1 = 9007199254740993` damage, but `float64` rounds this value to `2^53`:
`executeAttack` deals 9007199254740992 and leaves the defender one point of
health more than `max(0, HP - dmg)`.
(2) With level 5, attack 1, power `2^62 - 10^6`, defense 1, random factor 85 and
a neutral matchup the product `4 * Power` wraps to `-4000000`: the formula gives
313594649252994378 damage, `executeAttack` deals 1 (health 39 to 38, not 0).
(3) With the health `-2^63` and the 4 damage of the example of the claim,
`HP - dmg` wraps: the health becomes `2^63 - 4`, not `max(0, HP - dmg) = 0`. -/
theorem executeAttack_formula_damage_counterexample :
    (1 ≤ sturdyTarget.Defense ∧
      heavyHitter.Moves[moveIndexOf heavyHitter (constRand 15)]? = some strike ∧
      0 < strike.Power ∧ accuracyRoll (constRand 15) < strike.Accuracy ∧
      randomFactorOf (constRand 15) = 100 ∧
      ProductsFit heavyHitter.Level strike.Power heavyHitter.Attack sturdyTarget.Defense 100 ∧
      specMultiplier strike.MoveType sturdyTarget.Types = .one ∧
      specDamage heavyHitter.Level strike.Power heavyHitter.Attack sturdyTarget.Defense 100
        .one = 9007199254740993 ∧
      max 0 (sturdyTarget.HP - 9007199254740993) = 992800745259007 ∧
      (executeAttack heavyHitter sturdyTarget (constRand 15)).toOption.map
        (fun out => out.defender.HP) = some 992800745259008) ∧
    (1 ≤ neutralTarget.Defense ∧
      overflowHitter.Moves[moveIndexOf overflowHitter (constRand 0)]? = some torrent ∧
      0 < torrent.Power ∧ accuracyRoll (constRand 0) < torrent.Accuracy ∧
      randomFactorOf (constRand 0) = 85 ∧
      specMultiplier torrent.MoveType neutralTarget.Types = .one ∧
      specDamage overflowHitter.Level torrent.Power overflowHitter.Attack
        neutralTarget.Defense 85 .one = 313594649252994378 ∧
      max 0 (neutralTarget.HP - 313594649252994378) = 0 ∧
      (executeAttack overflowHitter neutralTarget (constRand 0)).toOption.map
        (fun out => out.defender.HP) = some 38) ∧
    (1 ≤ debtor.Defense ∧ accuracyRoll scenarioRand < 100 ∧
      randomFactorOf scenarioRand = 92 ∧
      specDamage charmander.Level 40 charmander.Attack debtor.Defense 92
        (specMultiplier "normal" debtor.Types) = 4 ∧
      max 0 (debtor.HP - 4) = 0 ∧
      (executeAttack charmander debtor scenarioRand).toOption.map
        (fun out => out.defender.HP) = some 9223372036854775804) := by
  decide

/-- Without overflow, with level at least 1, positive power, non-negative attack,
defense at least 1 and a random factor of at least 85, the damage before the
type multiplier is at least 1, and so is its `float64` value. -/
theorem damage_before_multiplier_pos {level power attack defense rf : Int} (hl : 1 ≤ level)
    (ha : 0 ≤ attack) (hp : 0 < power) (hd : 1 ≤ defense) (hrf : 85 ≤ rf)
    (hfit : ProductsFit level power attack defense rf) :
    1 ≤ float64OfInt (quo64 (mul64 (baseDamage level power attack defense) rf) 100) := by
  have hb := baseDamage_eq_spec hd hfit
  obtain ⟨-, -, -, h5⟩ := hfit
  unfold mul64 quo64
  rw [hb, wrap64_of_inInt64 h5, wrap64_of_inInt64 (tdiv_inInt64 h5 (by decide))]
  apply float64OfInt_pos
  have h1 : 0 ≤ Int.tdiv (2 * level) 5 + 2 := by
    rw [tdiv_of_nonneg (by omega) (by decide)]
    omega
  have h2 : 0 ≤ (Int.tdiv (2 * level) 5 + 2) * power * attack :=
    mul_nonneg (mul_nonneg h1 (le_of_lt hp)) ha
  have h3 : 0 ≤ Int.tdiv ((Int.tdiv (2 * level) 5 + 2) * power * attack) defense :=
    Int.tdiv_nonneg h2 (by omega)
  have h4 : 2 ≤ specBase level power attack defense := by
    unfold specBase
    rw [tdiv_of_nonneg h3 (by decide)]
    omega
  have h6 : 2 * 85 ≤ specBase level power attack defense * rf :=
    mul_le_mul h4 hrf (by decide) (by omega)
  rw [tdiv_of_nonneg (by omega) (by decide)]
  omega

/-- Claim C8, as the code has it: for level at least 1, non-negative attack,
positive power, defense at least 1 and a random factor in `[85, 100]`, provided
that no product of the damage formula leaves the 64-bit range of `int`, the
damage `executeAttack` computes for a hit on a defender whose types give the
multiplier 2 is strictly greater than the damage it computes for the same hit
on a defender of the same defense whose types give the multiplier 1. -/
theorem hitDamage_super_effective_gt_neutral (attacker superDefender neutralDefender : Pokemon)
    (move : Move) (rand : Rand) (hl : 1 ≤ attacker.Level) (ha : 0 ≤ attacker.Attack)
    (hp : 0 < move.Power) (hd : 1 ≤ superDefender.Defense)
    (hsame : neutralDefender.Defense = superDefender.Defense)
    (hfit : ProductsFit attacker.Level move.Power attacker.Attack superDefender.Defense
      (randomFactorOf rand))
    (hsuper : typeMultiplier move.MoveType superDefender.Types = .two)
    (hneutral : typeMultiplier move.MoveType neutralDefender.Types = .one) :
    (85 ≤ randomFactorOf rand ∧ randomFactorOf rand ≤ 100) ∧
      hitDamage attacker neutralDefender move rand <
        hitDamage attacker superDefender move rand := by
  have hrf := randomFactorOf_bounds rand
  refine ⟨hrf, ?_⟩
  have hpos := damage_before_multiplier_pos hl ha hp hd hrf.1 hfit
  unfold hitDamage damageDealt
  rw [hsuper, hneutral, hsame]
  simp only [scaleDamage]
  rw [if_neg (by omega), if_neg (by omega)]
  omega

theorem hitDamage_super_effective_gt_neutral_witness :
    (85 ≤ randomFactorOf scenarioRand ∧ randomFactorOf scenarioRand ≤ 100) ∧
      hitDamage squirtle neutralTarget
          { Name := "Water Gun", MoveType := "water", Power := 40, Accuracy := 100 }
          scenarioRand <
        hitDamage squirtle fireTarget
          { Name := "Water Gun", MoveType := "water", Power := 40, Accuracy := 100 }
          scenarioRand :=
  hitDamage_super_effective_gt_neutral squirtle fireTarget neutralTarget
    { Name := "Water Gun", MoveType := "water", Power := 40, Accuracy := 100 } scenarioRand
    (by decide) (by decide) (by decide) (by decide) (by decide) (by decide) (by decide)
    (by decide)

/-- Claim C8 fails as stated: with level 5, attack 1, defense 1, random factor 85
and the water move of power `2^62 - 10^6`, the product `4 * Power` wraps to
`-4000000`, the damage before the clamp is negative for both matchups, and a hit
on the fire-type defender deals 1 damage, as does the hit on the neutral one. -/
theorem hitDamage_super_effective_counterexample :
    1 ≤ overflowHitter.Level ∧ 0 ≤ overflowHitter.Attack ∧ 0 < torrent.Power ∧
      1 ≤ fireTarget.Defense ∧ neutralTarget.Defense = fireTarget.Defense ∧
      overflowHitter.Moves[moveIndexOf overflowHitter (constRand 0)]? = some torrent ∧
      accuracyRoll (constRand 0) < torrent.Accuracy ∧ randomFactorOf (constRand 0) = 85 ∧
      typeMultiplier torrent.MoveType fireTarget.Types = .two ∧
      typeMultiplier torrent.MoveType neutralTarget.Types = .one ∧
      mul64 4 torrent.Power = -4000000 ∧
      hitDamage overflowHitter fireTarget torrent (constRand 0) = 1 ∧
      hitDamage overflowHitter neutralTarget torrent (constRand 0) = 1 ∧
      (executeAttack overflowHitter fireTarget (constRand 0)).toOption.map
        (fun out => out.defender.HP) = some 38 ∧
      (executeAttack overflowHitter neutralTarget (constRand 0)).toOption.map
        (fun out => out.defender.HP) = some 38 := by
  decide

/-! ## The round limit and the defense stat -/

/-- With a round limit of 0 or less the loop of `simulateBattle` is not entered. -/
theorem simulateBattle_of_nonpos_limit (player opponent : Pokemon) (maxRounds : Int)
    (rand : Rand) (h : maxRounds ≤ 0) :
    simulateBattle player opponent maxRounds rand =
      .ok (conclude (initialState player opponent rand)) := by
  have hc : ¬ loopCond maxRounds (initialState player opponent rand) := by
    unfold loopCond initialState
    simp only
    omega
  unfold simulateBattle runBattle
  rw [battleLoop_eq, if_neg hc]

/-- Claim C9, as the code has it: the default of the round limit is applied by
`simulateBattleHandler`, before it calls `simulateBattle`.  A request with a
round limit of 0 or less gets the outcome of the request with the limit 5;
`simulateBattle` itself, called with a limit of 0 or less, executes no round and
reports `Rounds = 0` with the health of both sides unchanged. -/
theorem round_limit_default_in_handler (player opponent : Pokemon) (rounds : Int)
    (rand : Rand) (h : rounds ≤ 0) :
    simulateBattleHandler player opponent rounds rand =
        simulateBattleHandler player opponent 5 rand ∧
      ((player.ID ≠ 0 ∧ opponent.ID ≠ 0) →
        simulateBattleHandler player opponent rounds rand =
          some (simulateBattle player opponent 5 rand)) ∧
      ∃ res, simulateBattle player opponent rounds rand = .ok res ∧ res.Rounds = 0 ∧
        res.PlayerHP = player.HP ∧ res.OpponentHP = opponent.HP ∧
        res.PlayerMoves = [] ∧ res.OpponentMoves = [] := by
  have hdef : defaultRounds rounds = 5 := by
    unfold defaultRounds
    rw [if_pos h]
  have hdef5 : defaultRounds 5 = 5 := by decide
  refine ⟨?_, ?_, ?_⟩
  · unfold simulateBattleHandler
    rw [hdef, hdef5]
  · intro hid
    unfold simulateBattleHandler
    rw [if_neg (by omega), hdef]
  · obtain ⟨c1, c2, c3, c4, c5⟩ := conclude_fields (initialState player opponent rand)
    exact ⟨_, simulateBattle_of_nonpos_limit player opponent rounds rand h, c1, c2, c3, c4, c5⟩

theorem round_limit_default_in_handler_witness :
    simulateBattleHandler bulbasaur charmander 0 (constRand 0) =
        simulateBattleHandler bulbasaur charmander 5 (constRand 0) ∧
      ((bulbasaur.ID ≠ 0 ∧ charmander.ID ≠ 0) →
        simulateBattleHandler bulbasaur charmander 0 (constRand 0) =
          some (simulateBattle bulbasaur charmander 5 (constRand 0))) ∧
      ∃ res, simulateBattle bulbasaur charmander 0 (constRand 0) = .ok res ∧ res.Rounds = 0 ∧
        res.PlayerHP = bulbasaur.HP ∧ res.OpponentHP = charmander.HP ∧
        res.PlayerMoves = [] ∧ res.OpponentMoves = [] :=
  round_limit_default_in_handler bulbasaur charmander 0 (constRand 0) (by decide)

/-- Claim C9 fails as stated: called with `maxRounds = 0`, `simulateBattle`
executes no round (Bulbasaur 45, Charmander 39, `Rounds = 0`), whereas with
`maxRounds = 5` and the same draws it executes five rounds and ends at 25 and
19. -/
theorem simulateBattle_zero_limit_counterexample :
    (simulateBattle bulbasaur charmander 0 (constRand 0)).toOption.map
        (fun res => (res.Rounds, res.PlayerHP, res.OpponentHP)) = some (0, 45, 39) ∧
      (simulateBattle bulbasaur charmander 5 (constRand 0)).toOption.map
        (fun res => (res.Rounds, res.PlayerHP, res.OpponentHP)) = some (5, 25, 19) := by
  decide

/-- Claim C10, as the code has it: `executeAttack` uses the defense of the
defender as it is given and never replaces it by 1.  For a hit with a move of
positive power: a defense of 0 makes the division fault; every other defense,
negative ones included, gives an outcome; and whenever the products of the
formula and the quotient by the defense are `int`s, the damage before the
multiplier is exact in `float64` and `HP - dmg` is an `int`, the damage is the
formula of the specification evaluated with that defense: the health becomes
`max(0, HP - dmg)` with
`dmg = max(1, trunc(m * ((((2 * Level / 5 + 2) * Power * Attack / Defense) / 50 + 2) * rf / 100)))`,
the division by `Defense` truncating toward zero for a negative `Defense` too. -/
theorem executeAttack_defense_not_normalised (attacker defender : Pokemon) (rand : Rand)
    (move : Move) (hmove : attacker.Moves[moveIndexOf attacker rand]? = some move)
    (hpow : 0 < move.Power) (hhit : accuracyRoll rand < move.Accuracy) :
    (defender.Defense = 0 →
        executeAttack attacker defender rand = .error .divideByZero) ∧
      (defender.Defense ≠ 0 →
        ∃ out, executeAttack attacker defender rand = .ok out ∧ out.attacker = attacker ∧
          SameButHP defender out.defender) ∧
      (defender.Defense ≠ 0 →
        ProductsFit attacker.Level move.Power attacker.Attack defender.Defense
          (randomFactorOf rand) →
        QuotientFits attacker.Level move.Power attacker.Attack defender.Defense →
        ExactInFloat64 attacker.Level move.Power attacker.Attack defender.Defense
          (randomFactorOf rand) →
        InInt64 (defender.HP -
          specDamage attacker.Level move.Power attacker.Attack defender.Defense
            (randomFactorOf rand) (specMultiplier move.MoveType defender.Types)) →
        ∃ out, executeAttack attacker defender rand = .ok out ∧
          out.defender.HP =
            max 0 (defender.HP -
              specDamage attacker.Level move.Power attacker.Attack defender.Defense
                (randomFactorOf rand) (specMultiplier move.MoveType defender.Types))) := by
  rw [executeAttack_eq attacker defender rand move hmove, if_neg (by omega), if_pos hpow]
  refine ⟨?_, ?_, ?_⟩
  · intro hd
    rw [if_pos hd]
  · intro hd
    rw [if_neg hd]
    exact ⟨_, rfl, rfl, hitDefender_sameButHP _ _ _ _⟩
  · intro hd hfit hq hex hhp
    rw [if_neg hd]
    refine ⟨_, rfl, ?_⟩
    show applyDamage defender.HP (hitDamage attacker defender move rand) = _
    obtain ⟨h1, h2, h3, h5⟩ := hfit
    have h4 : InInt64 (Int.tdiv ((Int.tdiv (2 * attacker.Level) 5 + 2) * move.Power *
        attacker.Attack) defender.Defense) := hq
    have hbase : baseDamage attacker.Level move.Power attacker.Attack defender.Defense =
        specBase attacker.Level move.Power attacker.Attack defender.Defense := by
      unfold baseDamage specBase mul64 add64 quo64
      rw [wrap64_of_inInt64 h1, wrap64_of_inInt64 (tdiv_inInt64 h1 (by decide)),
        wrap64_of_inInt64 (tdiv_const_inInt64 h1).1, wrap64_of_inInt64 h2,
        wrap64_of_inInt64 h3, wrap64_of_inInt64 h4,
        wrap64_of_inInt64 (tdiv_inInt64 h4 (by decide)),
        wrap64_of_inInt64 (tdiv_const_inInt64 h4).2.1]
    have hscale : ∀ m : Multiplier,
        scaleDamage (Int.tdiv (specBase attacker.Level move.Power attacker.Attack
          defender.Defense * randomFactorOf rand) 100) m =
        specScale (Int.tdiv (specBase attacker.Level move.Power attacker.Attack
          defender.Defense * randomFactorOf rand) 100) m := by
      intro m
      cases m <;> simp only [scaleDamage, specScale, float64OfInt_exact hex]
    have hdmg : hitDamage attacker defender move rand =
        specDamage attacker.Level move.Power attacker.Attack defender.Defense
          (randomFactorOf rand) (specMultiplier move.MoveType defender.Types) := by
      unfold hitDamage damageDealt specDamage mul64 quo64
      simp only
      rw [typeMultiplier_eq_spec, hbase, wrap64_of_inInt64 h5,
        wrap64_of_inInt64 (tdiv_inInt64 h5 (by decide)), hscale]
      split <;> omega
    rw [hdmg]
    exact applyDamage_eq_max hhp

theorem executeAttack_defense_not_normalised_witness :
    (∃ out, executeAttack bulbasaur (squirtleWithDefense (-1)) (constRand 0) = .ok out ∧
        out.attacker = bulbasaur ∧ SameButHP (squirtleWithDefense (-1)) out.defender) ∧
      (∃ out, executeAttack bulbasaur (squirtleWithDefense (-1)) (constRand 0) = .ok out ∧
        out.defender.HP =
          max 0 ((squirtleWithDefense (-1)).HP -
            specDamage bulbasaur.Level 40 bulbasaur.Attack (squirtleWithDefense (-1)).Defense
              (randomFactorOf (constRand 0))
              (specMultiplier "normal" (squirtleWithDefense (-1)).Types))) :=
  ⟨(executeAttack_defense_not_normalised bulbasaur (squirtleWithDefense (-1)) (constRand 0)
      { Name := "Tackle", MoveType := "normal", Power := 40, Accuracy := 100 }
      (by rfl) (by decide) (by decide)).2.1 (by decide),
    (executeAttack_defense_not_normalised bulbasaur (squirtleWithDefense (-1)) (constRand 0)
      { Name := "Tackle", MoveType := "normal", Power := 40, Accuracy := 100 }
      (by rfl) (by decide) (by decide)).2.2 (by decide) (by decide) (by decide) (by decide)
      (by decide)⟩

/-- The example of claim C10 in numbers: for Tackle of Bulbasaur at random factor
85 the formula gives 134 damage with defense 1 and, the quotient `7840 / -1`
being `-7840`, the clamped 1 damage with defense -1. -/
theorem formula_example_negative_defense :
    specDamage 5 40 49 1 85 .one = 134 ∧ specDamage 5 40 49 (-1) 85 .one = 1 ∧
      specBase 5 40 49 (-1) = -154 := by
  decide

/-- Claim C10 fails as stated: Tackle (power 40) of Bulbasaur hits Squirtle for
134 damage when the defense is 1 (health 44 to 0); with defense 0 the call
faults with a division by zero, and so does the battle that the handler starts
with this defender; with defense -1 the hit deals 1 damage (health 44 to 43). -/
theorem executeAttack_zero_defense_counterexample :
    bulbasaur.Moves[moveIndexOf bulbasaur (constRand 0)]? =
        some { Name := "Tackle", MoveType := "normal", Power := 40, Accuracy := 100 } ∧
      accuracyRoll (constRand 0) < 100 ∧
      (executeAttack bulbasaur (squirtleWithDefense 0) (constRand 0)).toOption.map
        (fun out => out.defender.HP) = none ∧
      (match executeAttack bulbasaur (squirtleWithDefense 0) (constRand 0) with
        | .error e => e = .divideByZero
        | .ok _ => False) ∧
      (simulateBattleHandler bulbasaur (squirtleWithDefense 0) 5 (constRand 0)).map
        (fun r => r.toOption.map (fun res => res.Rounds)) = some none ∧
      hitDamage bulbasaur (squirtleWithDefense 1)
        { Name := "Tackle", MoveType := "normal", Power := 40, Accuracy := 100 }
        (constRand 0) = 134 ∧
      (executeAttack bulbasaur (squirtleWithDefense 1) (constRand 0)).toOption.map
        (fun out => out.defender.HP) = some 0 ∧
      hitDamage bulbasaur (squirtleWithDefense (-1))
        { Name := "Tackle", MoveType := "normal", Power := 40, Accuracy := 100 }
        (constRand 0) = 1 ∧
      (executeAttack bulbasaur (squirtleWithDefense (-1)) (constRand 0)).toOption.map
        (fun out => out.defender.HP) = some 43 := by
  refine ⟨by rfl, by decide, by decide, ?_, by decide, by decide, by decide, by decide,
    by decide⟩
  show (match (Except.error Fault.divideByZero : Except Fault AttackOutcome) with
    | .error e => e = .divideByZero
    | .ok _ => False)
  rfl

end PixelPokemon
